import Mathlib

/-!
Shallow embedding of the fragments snippet manager's data-access layer
(folders, snippets, tags) and its HTTP handlers, translated from the Go
sources: `backend/api/v1/database/folders.go`, the snippet database layer,
the folder/snippet handlers and the auth handler.  The relational store is
modelled as explicit lists of rows; each Go function that runs inside a
database transaction becomes a pure function from a store to `Except Err`
of a new store, so that "rolled back on error" is the identity on the
store by construction.
-/

namespace Fragments

/-- A Go `error` value: the formatted message text together with the list of
sentinel error messages reachable through the `%w` wrap chain (used to model
`errors.Is`).  Base errors made by `errors.New` carry themselves as sentinel. -/
structure Err where
  text : String
  sentinels : List String
deriving DecidableEq, Repr

/-- Model of `errors.New`. -/
def errNew (m : String) : Err := ⟨m, [m]⟩

/-- Model of `fmt.Errorf` without a `%w` verb. -/
def errF (m : String) : Err := ⟨m, []⟩

/-- Model of `fmt.Errorf("<pre>%w", e)`: prefix text, keep the wrap chain. -/
def errWrapEnd (pre : String) (e : Err) : Err := ⟨pre ++ e.text, e.sentinels⟩

/-- Model of `fmt.Errorf("%w<post>", e)`: suffix text, keep the wrap chain. -/
def errWrapStart (e : Err) (post : String) : Err := ⟨e.text ++ post, e.sentinels⟩

/-- Model of `errors.Is(e, target)` for the base sentinel errors of this repo
(each sentinel has a distinct message, so messages identify them). -/
def errorsIs (e target : Err) : Bool := e.sentinels.contains target.text

/-- `database.ErrNoFolderError`. -/
def ErrNoFolderError : Err := errNew "folder does not exist"

/-- `database.ErrFolderHasChildren`. -/
def ErrFolderHasChildren : Err := errNew "folder has child folders"

/-- `database.ErrNoSnippetError`. -/
def ErrNoSnippetError : Err := errNew "snippet does not exist"

/-- `database.ErrDatabaseError`. -/
def ErrDatabaseError : Err := errNew "database error occurred"

/-- Model of Go `strings.TrimSpace`: drop unicode whitespace from both ends
(implemented over the character list so that it computes by structural
recursion). -/
def goTrim (s : String) : String :=
  ⟨((s.data.dropWhile Char.isWhitespace).reverse.dropWhile Char.isWhitespace).reverse⟩

/-- Model of Go `strings.ToLower` (ASCII-relevant part). -/
def goToLower (s : String) : String := ⟨s.data.map Char.toLower⟩

/-- Decidable equality for `Except` results, so that concrete runs of the
modelled operations can be checked by evaluation. -/
instance exceptDecEq {ε α : Type _} [DecidableEq ε] [DecidableEq α] :
    DecidableEq (Except ε α) := fun x y =>
  match x, y with
  | .ok a, .ok b =>
    match decEq a b with
    | isTrue h => isTrue (h ▸ rfl)
    | isFalse h => isFalse (fun hc => h (Except.ok.inj hc))
  | .error a, .error b =>
    match decEq a b with
    | isTrue h => isTrue (h ▸ rfl)
    | isFalse h => isFalse (fun hc => h (Except.error.inj hc))
  | .ok _, .error _ => isFalse (fun hc => Except.noConfusion hc)
  | .error _, .ok _ => isFalse (fun hc => Except.noConfusion hc)

/-- Checks whether `pat` occurs at the start of `l` (helper for the model of
`strings.Contains`). -/
def leadsWith : List Char → List Char → Bool
  | [], _ => true
  | _ :: _, [] => false
  | a :: as, b :: bs => a == b && leadsWith as bs

/-- Occurrence of `pat` anywhere in `l`. -/
def containsSub (l pat : List Char) : Bool :=
  if leadsWith pat l then true
  else
    match l with
    | [] => false
    | _ :: t => containsSub t pat

/-- Model of Go `strings.Contains`. -/
def strContains (s pat : String) : Bool := containsSub s.data pat.data

/-- A row of the `folders` table; also the `models.Folder` request/response
struct (same fields). -/
structure Folder where
  id : Int
  userId : Int
  name : String
  description : Option String
  parentId : Option Int
  createdAt : Nat
  updatedAt : Nat
deriving DecidableEq, Repr

/-- A row of the `snippets` table. -/
structure SnippetRow where
  id : Int
  userId : Int
  folderId : Option Int
  title : String
  description : Option String
  content : String
  language : String
  isFavorite : Bool
  createdAt : Nat
  updatedAt : Nat
deriving DecidableEq, Repr

/-- The `models.Snippet` request/response struct: the row columns plus the
optional tag-name list (`Tags *[]string`). -/
structure Snippet where
  id : Int
  userId : Int
  folderId : Option Int
  title : String
  description : Option String
  content : String
  language : String
  isFavorite : Bool
  tags : Option (List String)
  createdAt : Nat
  updatedAt : Nat
deriving DecidableEq, Repr

/-- A row of the `tags` table (the unused `color` column is omitted; no code
path under consideration reads or writes it). -/
structure Tag where
  id : Int
  userId : Int
  name : String
  createdAt : Nat
deriving DecidableEq, Repr

/-- A row of the `snippet_tags` join table. -/
structure SnippetTag where
  snippetId : Int
  tagId : Int
deriving DecidableEq, Repr

/-- The relational store: the table contents plus the id sequences
(`SERIAL`/`AUTOINCREMENT` columns). -/
structure Store where
  folders : List Folder
  snippets : List SnippetRow
  tags : List Tag
  snippetTags : List SnippetTag
  nextFolderId : Int
  nextSnippetId : Int
  nextTagId : Int
deriving DecidableEq, Repr

/-- A freshly created database. -/
def emptyStore : Store := ⟨[], [], [], [], 1, 1, 1⟩

/-- `SELECT ... FROM folders WHERE id = $1` (`QueryRow` returns the first
matching row or no row). -/
def findFolderById (s : Store) (id : Int) : Option Folder :=
  s.folders.find? (fun f => f.id == id)

/-- `SELECT parent_id FROM folders WHERE id = $1 AND user_id = $2`. -/
def findFolderByIdUser (s : Store) (id userId : Int) : Option Folder :=
  s.folders.find? (fun f => f.id == id && f.userId == userId)

/-- `database.checkCircularReference` (folders.go), phrased on the remaining
depth budget: the Go function carries an increasing `depth` counter and
fails on entry when `depth > 50`, which is exactly a remaining budget of
`51 - depth` calls; recursing at `depth + 1` decrements the budget.  The
reparameterization makes the recursion structural. -/
def checkCircularReferenceFuel (s : Store) (userID : Int) : Nat → Int → Except Err Unit
  | 0, _ => .error (errF "maximum folder depth exceeded")
  | fuel + 1, parentID =>
    match findFolderByIdUser s parentID userID with
    | none => .ok ()
    | some row =>
      match row.parentId with
      | none => .ok ()
      | some gp => checkCircularReferenceFuel s userID fuel gp

/-- `database.checkCircularReference` with the source's depth-counter
interface (call sites pass `depth = 0`). -/
def checkCircularReference (s : Store) (userID parentID : Int) (depth : Nat) :
    Except Err Unit :=
  checkCircularReferenceFuel s userID (51 - depth) parentID

/-- `database.checkCircularReferenceForUpdate` (folders.go) on the remaining
depth budget (see `checkCircularReferenceFuel`): like the create walk but
additionally failing when the walk reaches the folder being updated. -/
def checkCircularReferenceForUpdateFuel (s : Store) (userID folderID : Int) :
    Nat → Int → Except Err Unit
  | 0, _ => .error (errF "maximum folder depth exceeded")
  | fuel + 1, newParentID =>
    if newParentID == folderID then .error (errF "folder cannot be its own parent")
    else
      match findFolderByIdUser s newParentID userID with
      | none => .ok ()
      | some row =>
        match row.parentId with
        | none => .ok ()
        | some gp =>
          if gp == folderID then .error (errF "circular reference detected")
          else checkCircularReferenceForUpdateFuel s userID folderID fuel gp

/-- `database.checkCircularReferenceForUpdate` with the source's
depth-counter interface (call sites pass `depth = 0`). -/
def checkCircularReferenceForUpdate (s : Store) (userID folderID newParentID : Int)
    (depth : Nat) : Except Err Unit :=
  checkCircularReferenceForUpdateFuel s userID folderID (51 - depth) newParentID

/-- The duplicate-name pre-check of `CreateFolder`: `SELECT COUNT(*) FROM
folders WHERE user_id = $1 AND name = $2 AND parent_id = $3` (or
`parent_id IS NULL` when no parent is supplied). -/
def dupNameCount (s : Store) (uid : Int) (name : String) (parent : Option Int) : Nat :=
  match parent with
  | some p => (s.folders.filter (fun f => f.userId == uid && f.name == name && f.parentId == some p)).length
  | none => (s.folders.filter (fun f => f.userId == uid && f.name == name && f.parentId == none)).length

/-- The duplicate-name pre-check of `UpdateFolder`: same as `dupNameCount`
but excluding the row being updated (`AND id != $4`). -/
def dupNameCountExcl (s : Store) (uid : Int) (name : String) (parent : Option Int)
    (folderID : Int) : Nat :=
  match parent with
  | some p => (s.folders.filter (fun f => f.userId == uid && f.name == name && f.parentId == some p && !(f.id == folderID))).length
  | none => (s.folders.filter (fun f => f.userId == uid && f.name == name && f.parentId == none && !(f.id == folderID))).length

/-- The parent-validation block of `database.CreateFolder`: parent row must
exist and belong to the requesting user, then the circular walk runs from
the proposed parent. -/
def createFolderParentCheck (s : Store) (folder : Folder) : Except Err Unit :=
  match folder.parentId with
  | none => .ok ()
  | some pid =>
    match findFolderById s pid with
    | none => .error (errF "parent folder does not exist")
    | some parentRow =>
      if parentRow.userId != folder.userId then
        .error (errF "parent folder does not belong to user")
      else
        match checkCircularReference s folder.userId pid 0 with
        | .error e => .error (errWrapEnd "circular reference detected: " e)
        | .ok _ => .ok ()

/-- `database.CreateFolder` (folders.go): parent validation, circular-walk
check, duplicate pre-check, then the INSERT; the whole sequence runs in one
transaction, so an error leaves the store untouched. -/
def CreateFolder (now : Nat) (s : Store) (folder : Folder) :
    Except Err (Store × Folder) :=
  match createFolderParentCheck s folder with
  | .error e => .error e
  | .ok _ =>
    if dupNameCount s folder.userId folder.name folder.parentId > 0 then
      .error (errF "folder name already exists in this location")
    else
      let newRow : Folder :=
        { id := s.nextFolderId, userId := folder.userId, name := folder.name,
          description := folder.description, parentId := folder.parentId,
          createdAt := now, updatedAt := now }
      let s' := { s with folders := s.folders ++ [newRow],
                         nextFolderId := s.nextFolderId + 1 }
      .ok (s', { folder with id := newRow.id, createdAt := now, updatedAt := now })

/-- The error `CreateFolder` returns when the INSERT statement itself fails
with a driver error `e` (folders.go: `fmt.Errorf("failed to insert folder:
%w", err)`); this is the only treatment an insert-time unique-constraint
violation receives. -/
def createFolderInsertFailureErr (e : Err) : Err :=
  errWrapEnd "failed to insert folder: " e

/-- `database.GetFolder`. -/
def GetFolderDb (s : Store) (folderID : Int) : Except Err Folder :=
  match findFolderById s folderID with
  | none => .error ErrNoFolderError
  | some f => .ok f

/-- The parent-validation block of `database.UpdateFolder`: parent must
exist and belong to the requesting user, a folder cannot be its own parent,
and the cycle walk runs only when the parent actually changes. -/
def updateFolderParentCheck (s : Store) (folderID : Int) (current : Folder)
    (folder : Folder) : Except Err Unit :=
  match folder.parentId with
  | none => .ok ()
  | some pid =>
    match findFolderById s pid with
    | none => .error (errF "parent folder does not exist")
    | some parentRow =>
      if parentRow.userId != folder.userId then
        .error (errF "parent folder does not belong to user")
      else if pid == folderID then
        .error (errF "folder cannot be its own parent")
      else if current.parentId == some pid then
        .ok ()
      else
        match checkCircularReferenceForUpdate s folder.userId folderID pid 0 with
        | .error e => .error (errWrapEnd "circular reference detected: " e)
        | .ok _ => .ok ()

/-- `database.UpdateFolder` (folders.go): existence check, parent
validation, self-parent rejection, the cycle walk (skipped when the parent
is unchanged), duplicate pre-check excluding the row itself, then the
UPDATE, which does not set `user_id`. -/
def UpdateFolder (now : Nat) (s : Store) (folderID : Int) (folder : Folder) :
    Except Err (Store × Folder) :=
  match findFolderById s folderID with
  | none =>
    .error (errWrapEnd ("folder with ID " ++ toString folderID ++ " does not exist: ")
      ErrNoFolderError)
  | some current =>
    match updateFolderParentCheck s folderID current folder with
    | .error e => .error e
    | .ok _ =>
      if dupNameCountExcl s folder.userId folder.name folder.parentId folderID > 0 then
        .error (errF "folder name already exists in this location")
      else
        let s' := { s with folders := s.folders.map (fun f =>
          if f.id == folderID then
            { f with name := folder.name, description := folder.description,
                     parentId := folder.parentId, updatedAt := now }
          else f) }
        .ok (s', { folder with
                    id := folderID
                    userId := current.userId
                    updatedAt := now })

/-- `database.DeleteFolder` (folders.go): existence check, reject when child
folders exist, move contained snippets to root, delete the row; all inside
one transaction. -/
def DeleteFolder (now : Nat) (s : Store) (folderID : Int) : Except Err Store :=
  if !(s.folders.any (fun f => f.id == folderID)) then
    .error (errWrapEnd ("folder with ID " ++ toString folderID ++ " does not exist: ")
      ErrNoFolderError)
  else
    let childCount := (s.folders.filter (fun f => f.parentId == some folderID)).length
    if childCount > 0 then
      .error (errWrapEnd ("folder has " ++ toString childCount ++ " child folders: ")
        ErrFolderHasChildren)
    else
      let snippetCount := (s.snippets.filter (fun sn => sn.folderId == some folderID)).length
      let s1 :=
        if snippetCount > 0 then
          { s with snippets := s.snippets.map (fun sn =>
              if sn.folderId == some folderID then
                { sn with folderId := none, updatedAt := now }
              else sn) }
        else s
      .ok { s1 with folders := s1.folders.filter (fun f => !(f.id == folderID)) }

/-- `SELECT id FROM tags WHERE user_id = $1 AND name = $2`. -/
def findTag (s : Store) (userId : Int) (name : String) : Option Tag :=
  s.tags.find? (fun t => t.userId == userId && t.name == name)

/-- One iteration of the `database.insertSnippetTags` loop: trim the name,
skip it if empty, look up the user's tag of that exact name or create it,
then link it to the snippet (`INSERT ... ON CONFLICT DO NOTHING`). -/
def insertOneTag (now : Nat) (snippetID userID : Int) (st : Store) (tn : String) : Store :=
  let tagName := goTrim tn
  if tagName == "" then st
  else
    let found := findTag st userID tagName
    let st1 :=
      match found with
      | some _ => st
      | none =>
        { st with
            tags := st.tags ++ [({ id := st.nextTagId, userId := userID,
                                    name := tagName, createdAt := now } : Tag)]
            nextTagId := st.nextTagId + 1 }
    let tagID :=
      match found with
      | some t => t.id
      | none => st.nextTagId
    if st1.snippetTags.any (fun l => l.snippetId == snippetID && l.tagId == tagID) then
      st1
    else
      { st1 with snippetTags := st1.snippetTags ++ [({ snippetId := snippetID, tagId := tagID } : SnippetTag)] }

/-- `database.insertSnippetTags`: the loop above over the supplied names. -/
def insertSnippetTags (now : Nat) (s : Store) (snippetID userID : Int)
    (tagNames : List String) : Store :=
  tagNames.foldl (insertOneTag now snippetID userID) s

/-- Insertion of one string into a `≤`-sorted list (the model of the SQL
`ORDER BY t.name`). -/
def insertSorted (x : String) : List String → List String
  | [] => [x]
  | y :: ys => if x ≤ y then x :: y :: ys else y :: insertSorted x ys

/-- Sort a list of names (the model of `ORDER BY t.name`). -/
def sortNames (l : List String) : List String := l.foldr insertSorted []

/-- The rows of `SELECT t.name FROM snippet_tags st JOIN tags t ON st.tag_id
= t.id WHERE st.snippet_id = $1` before ordering. -/
def joinedTagNames (s : Store) (sid : Int) : List String :=
  s.snippetTags.filterMap (fun l =>
    if l.snippetId == sid then (s.tags.find? (fun t => t.id == l.tagId)).map (fun t => t.name)
    else none)

/-- `database.getSnippetTags`: the join above, ordered by name. -/
def getSnippetTags (s : Store) (sid : Int) : List String :=
  sortNames (joinedTagNames s sid)

/-- `database.CreateSnippet`: INSERT the row, then link tags when a
non-empty tag list was supplied, in one transaction. -/
def CreateSnippet (now : Nat) (s : Store) (snippet : Snippet) :
    Except Err (Store × Snippet) :=
  let row : SnippetRow :=
    { id := s.nextSnippetId, userId := snippet.userId, folderId := snippet.folderId,
      title := snippet.title, description := snippet.description,
      content := snippet.content, language := snippet.language,
      isFavorite := snippet.isFavorite, createdAt := now, updatedAt := now }
  let s1 := { s with snippets := s.snippets ++ [row],
                     nextSnippetId := s.nextSnippetId + 1 }
  let s2 :=
    match snippet.tags with
    | some ts => if ts.length > 0 then insertSnippetTags now s1 row.id snippet.userId ts else s1
    | none => s1
  .ok (s2, { snippet with id := row.id, createdAt := now, updatedAt := now })

/-- `database.GetSnippet`: read the row, then its tag names; a nil tag slice
is returned when the snippet has no tags. -/
def GetSnippetDb (s : Store) (snippetID : Int) : Except Err Snippet :=
  match s.snippets.find? (fun r => r.id == snippetID) with
  | none => .error ErrNoSnippetError
  | some r =>
    let tags := getSnippetTags s snippetID
    .ok { id := r.id, userId := r.userId, folderId := r.folderId, title := r.title,
          description := r.description, content := r.content, language := r.language,
          isFavorite := r.isFavorite,
          tags := if tags.length > 0 then some tags else none,
          createdAt := r.createdAt, updatedAt := r.updatedAt }

/-- `database.UpdateSnippet`: read the owner, UPDATE the scalar columns
(never `user_id`), and only when a tag list is supplied delete the whole
link set and re-insert the new one; all in one transaction.  The returned
snippet carries the stored owner and, when tags were supplied, the re-read
tag list. -/
def UpdateSnippet (now : Nat) (s : Store) (snippetID : Int) (snippet : Snippet) :
    Except Err (Store × Snippet) :=
  match s.snippets.find? (fun r => r.id == snippetID) with
  | none =>
    .error (errWrapEnd ("snippet with ID " ++ toString snippetID ++ " does not exist: ")
      ErrNoSnippetError)
  | some current =>
    let s1 := { s with snippets := s.snippets.map (fun r =>
      if r.id == snippetID then
        { r with folderId := snippet.folderId, title := snippet.title,
                 description := snippet.description, content := snippet.content,
                 language := snippet.language, isFavorite := snippet.isFavorite,
                 updatedAt := now }
      else r) }
    let s2 :=
      match snippet.tags with
      | none => s1
      | some ts =>
        let sDel := { s1 with snippetTags := s1.snippetTags.filter (fun l => !(l.snippetId == snippetID)) }
        if ts.length > 0 then insertSnippetTags now sDel snippetID current.userId ts else sDel
    let resultTags : Option (List String) :=
      match snippet.tags with
      | none => snippet.tags
      | some _ => some (getSnippetTags s2 snippetID)
    .ok (s2, { snippet with
                id := snippetID
                userId := current.userId
                updatedAt := now
                tags := resultTags })

/-- `database.DeleteSnippet`: plain DELETE by id; the store-level `ON DELETE
CASCADE` on `snippet_tags` removes the snippet's links. -/
def DeleteSnippet (s : Store) (snippetID : Int) : Except Err Store :=
  if !(s.snippets.any (fun r => r.id == snippetID)) then
    .error (errWrapEnd ("snippet with ID " ++ toString snippetID ++ " does not exist: ")
      ErrNoSnippetError)
  else
    .ok { s with snippets := s.snippets.filter (fun r => !(r.id == snippetID)),
                 snippetTags := s.snippetTags.filter (fun l => !(l.snippetId == snippetID)) }

/-- Character set allowed in folder names (part of `validateFolder`). -/
def isAllowedFolderChar (c : Char) : Bool :=
  (c ≥ 'a' && c ≤ 'z') || (c ≥ 'A' && c ≤ 'Z') || (c ≥ '0' && c ≤ '9') ||
  c == '_' || c == '-' || c == ' ' || c == '.'

/-- The name checks of `FolderHandler.validateFolder`: required after trim,
at most 100 runes, restricted character set; returns the folder with the
trimmed name. -/
def validateFolderName (folder0 : Folder) : Except String Folder :=
  if goTrim folder0.name == "" then .error "folder name is required"
  else if (goTrim folder0.name).length > 100 then
    .error "folder name must be less than 100 characters"
  else if !((goTrim folder0.name).data.all isAllowedFolderChar) then
    .error "folder name can only contain letters, numbers, underscores, hyphens, spaces, and periods"
  else .ok { folder0 with name := goTrim folder0.name }

/-- The description check of `FolderHandler.validateFolder`: trimmed,
bounded, emptied to nil. -/
def validateFolderDescription (folder : Folder) : Except String Folder :=
  match folder.description with
  | none => .ok folder
  | some d =>
    if (goTrim d).length > 500 then
      .error "folder description must be less than 500 characters"
    else .ok { folder with description := if goTrim d == "" then none else some (goTrim d) }

/-- The id checks of `FolderHandler.validateFolder`: positive user id,
positive parent id when supplied, and no self-parent when the decoded id is
nonzero. -/
def validateFolderIds (folder : Folder) : Except String Folder :=
  if folder.userId ≤ 0 then .error "valid user ID is required"
  else
    match folder.parentId with
    | none => .ok folder
    | some p =>
      if p ≤ 0 then .error "parent folder ID must be positive if provided"
      else if folder.id != 0 && p == folder.id then .error "folder cannot be its own parent"
      else .ok folder

/-- `FolderHandler.validateFolder`: the checks above in source order,
returning the cleaned-up folder (the Go code mutates in place). -/
def validateFolder (folder0 : Folder) : Except String Folder :=
  match validateFolderName folder0 with
  | .error e => .error e
  | .ok f1 =>
    match validateFolderDescription f1 with
    | .error e => .error e
    | .ok f2 => validateFolderIds f2

/-- Character set allowed in language tags (part of `validateSnippet`). -/
def isAllowedLangChar (c : Char) : Bool :=
  (c ≥ 'a' && c ≤ 'z') || (c ≥ '0' && c ≤ '9') || c == '-' || c == '+'

/-- Character set allowed in tag names (part of `validateSnippet`). -/
def isAllowedTagChar (c : Char) : Bool :=
  (c ≥ 'a' && c ≤ 'z') || (c ≥ 'A' && c ≤ 'Z') || (c ≥ '0' && c ≤ '9') ||
  c == '_' || c == '-' || c == ' '

/-- The per-tag cleanup loop of `validateSnippet`: trim each tag and stop at
the first empty, over-long or ill-charactered one. -/
def validateTagList : List String → Except String (List String)
  | [] => .ok []
  | t :: ts =>
    let ct := goTrim t
    if ct == "" then .error "tags cannot be empty"
    else if ct.length > 50 then .error "each tag must be less than 50 characters"
    else if !(ct.data.all isAllowedTagChar) then
      .error "tags can only contain letters, numbers, underscores, hyphens, and spaces"
    else
      match validateTagList ts with
      | .error e => .error e
      | .ok rest => .ok (ct :: rest)

/-- The duplicate-removal pass of `validateSnippet`: case-insensitive,
keeping the first occurrence (`seen` holds the lowercased names met so far). -/
def dedupTagsAux (seen : List String) : List String → List String
  | [] => []
  | t :: ts =>
    let lower := goToLower t
    if seen.contains lower then dedupTagsAux seen ts
    else t :: dedupTagsAux (lower :: seen) ts

/-- Remove case-insensitive duplicate tags, first occurrence preserved. -/
def dedupTags (l : List String) : List String := dedupTagsAux [] l

/-- `SnippetHandler.validateSnippet`: field-by-field validation in source
order (title, content, language, description, user id, folder id, tags),
returning the cleaned-up snippet. -/
def validateSnippet (sn0 : Snippet) : Except String Snippet :=
  if goTrim sn0.title == "" then .error "title is required"
  else
  let sn1 := { sn0 with title := goTrim sn0.title }
  if sn1.title.length > 200 then .error "title must be less than 200 characters"
  else if goTrim sn1.content == "" then .error "content is required"
  else
  let sn2 := { sn1 with content := goTrim sn1.content }
  if sn2.content.length > 1000000 then .error "content must be less than 1 million characters"
  else if goTrim sn2.language == "" then .error "language is required"
  else
  let sn3 := { sn2 with language := goToLower (goTrim sn2.language) }
  if !(sn3.language.data.all isAllowedLangChar) then
    .error "language can only contain lowercase letters, numbers, hyphens, and plus signs"
  else if sn3.language.length > 50 then .error "language must be less than 50 characters"
  else
  let descStep : Except String Snippet :=
    match sn3.description with
    | none => .ok sn3
    | some d =>
      let dt := goTrim d
      if dt.length > 500 then .error "description must be less than 500 characters"
      else .ok { sn3 with description := if dt == "" then none else some dt }
  match descStep with
  | .error e => .error e
  | .ok sn4 =>
    if sn4.userId ≤ 0 then .error "valid user ID is required"
    else if sn4.folderId.any (fun fid => decide (fid ≤ 0)) then
      .error "folder ID must be positive if provided"
    else
      match sn4.tags with
      | none => .ok sn4
      | some ts =>
        if ts.length > 20 then .error "snippet cannot have more than 20 tags"
        else
          match validateTagList ts with
          | .error e => .error e
          | .ok cleaned => .ok { sn4 with tags := some (dedupTags cleaned) }

/-- An HTTP handler outcome: either `SendError` with a status and message,
or a success status with the encoded value. -/
inductive HResp (α : Type) where
  | err (status : Nat) (message : String)
  | ok (status : Nat) (val : α)
deriving DecidableEq, Repr

/-- The error mapping of `FolderHandler.CreateFolder` (part of the handler):
substring matches on the error text, then sentinel checks. -/
def mapCreateFolderDbError (e : Err) : HResp Folder :=
  if strContains e.text "already exists" then
    .err 409 "Folder name already exists in this location"
  else if strContains e.text "parent folder" then .err 400 "Invalid parent folder"
  else if strContains e.text "circular reference" then
    .err 400 "Cannot create folder: circular reference detected"
  else if errorsIs e ErrDatabaseError then
    .err 500 "Unable to process request at this time"
  else .err 500 "An unexpected error occurred"

/-- `FolderHandler.CreateFolder`: overwrite the decoded user id with the
authenticated one, validate, call the database layer, map errors.  Returns
the store (unchanged on error) together with the response. -/
def hCreateFolder (now : Nat) (s : Store) (authId : Int) (body : Folder) :
    Store × HResp Folder :=
  let body1 := { body with userId := authId }
  match validateFolder body1 with
  | .error m => (s, .err 400 m)
  | .ok body2 =>
    match CreateFolder now s body2 with
    | .error e => (s, mapCreateFolderDbError e)
    | .ok (s', f) => (s', .ok 201 f)

/-- `FolderHandler.GetFolder`: fetch, then mask an ownership mismatch as the
same "Folder not found" used for a missing row. -/
def hGetFolder (s : Store) (authId fid : Int) : HResp Folder :=
  match GetFolderDb s fid with
  | .error e =>
    if errorsIs e ErrNoFolderError then .err 404 "Folder not found"
    else if errorsIs e ErrDatabaseError then .err 500 "Unable to process request at this time"
    else .err 500 "An unexpected error occurred"
  | .ok f =>
    if f.userId != authId then .err 404 "Folder not found"
    else .ok 200 f

/-- The error mapping of `FolderHandler.UpdateFolder`. -/
def mapUpdateFolderDbError (e : Err) : HResp Folder :=
  if errorsIs e ErrNoFolderError then .err 404 "Folder not found"
  else if strContains e.text "already exists" then
    .err 409 "Folder name already exists in this location"
  else if strContains e.text "parent folder" then .err 400 "Invalid parent folder"
  else if strContains e.text "circular reference" then
    .err 400 "Cannot update folder: circular reference detected"
  else if errorsIs e ErrDatabaseError then
    .err 500 "Unable to process request at this time"
  else .err 500 "An unexpected error occurred"

/-- `FolderHandler.UpdateFolder`: id check, existence + ownership check
(mismatch masked as 404), user-id overwrite, validation, database update,
error mapping. -/
def hUpdateFolder (now : Nat) (s : Store) (authId fid : Int) (body : Folder) :
    Store × HResp Folder :=
  if fid ≤ 0 then (s, .err 400 "Invalid folder ID")
  else
    match GetFolderDb s fid with
    | .error e =>
      (s, if errorsIs e ErrNoFolderError then .err 404 "Folder not found"
          else if errorsIs e ErrDatabaseError then .err 500 "Unable to process request at this time"
          else .err 500 "An unexpected error occurred")
    | .ok existing =>
      if existing.userId != authId then (s, .err 404 "Folder not found")
      else
        let body1 := { body with userId := authId }
        match validateFolder body1 with
        | .error m => (s, .err 400 m)
        | .ok body2 =>
          match UpdateFolder now s fid body2 with
          | .error e => (s, mapUpdateFolderDbError e)
          | .ok (s', f) => (s', .ok 200 f)

/-- `FolderHandler.DeleteFolder`: id check, existence + ownership check
(mismatch masked as 404), database delete, error mapping. -/
def hDeleteFolder (now : Nat) (s : Store) (authId fid : Int) :
    Store × HResp Unit :=
  if fid ≤ 0 then (s, .err 400 "Invalid folder ID")
  else
    match GetFolderDb s fid with
    | .error e =>
      (s, if errorsIs e ErrNoFolderError then .err 404 "Folder not found"
          else if errorsIs e ErrDatabaseError then .err 500 "Unable to process request at this time"
          else .err 500 "An unexpected error occurred")
    | .ok existing =>
      if existing.userId != authId then (s, .err 404 "Folder not found")
      else
        match DeleteFolder now s fid with
        | .error e =>
          (s, if errorsIs e ErrNoFolderError then .err 404 "Folder not found"
              else if errorsIs e ErrFolderHasChildren then
                .err 409 "Cannot delete folder: folder contains subfolders"
              else if errorsIs e ErrDatabaseError then .err 500 "Unable to process request at this time"
              else .err 500 "An unexpected error occurred")
        | .ok s' => (s', .ok 204 ())

/-- `SnippetHandler.CreateSnippet`: user-id overwrite, validation, database
create, error mapping. -/
def hCreateSnippet (now : Nat) (s : Store) (authId : Int) (body : Snippet) :
    Store × HResp Snippet :=
  let body1 := { body with userId := authId }
  match validateSnippet body1 with
  | .error m => (s, .err 400 m)
  | .ok body2 =>
    match CreateSnippet now s body2 with
    | .error e =>
      (s, if errorsIs e ErrDatabaseError then .err 500 "Unable to process request at this time"
          else .err 500 "An unexpected error occurred")
    | .ok (s', sn) => (s', .ok 201 sn)

/-- `SnippetHandler.GetSnippet`: fetch, then mask an ownership mismatch as
the same "Snippet not found" used for a missing row. -/
def hGetSnippet (s : Store) (authId sid : Int) : HResp Snippet :=
  match GetSnippetDb s sid with
  | .error e =>
    if errorsIs e ErrNoSnippetError then .err 404 "Snippet not found"
    else if errorsIs e ErrDatabaseError then .err 500 "Unable to process request at this time"
    else .err 500 "An unexpected error occurred"
  | .ok sn =>
    if sn.userId != authId then .err 404 "Snippet not found"
    else .ok 200 sn

/-- `SnippetHandler.UpdateSnippet`: id check, existence + ownership check
(mismatch masked as 404), user-id overwrite, validation, database update,
error mapping. -/
def hUpdateSnippet (now : Nat) (s : Store) (authId sid : Int) (body : Snippet) :
    Store × HResp Snippet :=
  if sid ≤ 0 then (s, .err 400 "Invalid snippet ID")
  else
    match GetSnippetDb s sid with
    | .error e =>
      (s, if errorsIs e ErrNoSnippetError then .err 404 "Snippet not found"
          else if errorsIs e ErrDatabaseError then .err 500 "Unable to process request at this time"
          else .err 500 "An unexpected error occurred")
    | .ok existing =>
      if existing.userId != authId then (s, .err 404 "Snippet not found")
      else
        let body1 := { body with userId := authId }
        match validateSnippet body1 with
        | .error m => (s, .err 400 m)
        | .ok body2 =>
          match UpdateSnippet now s sid body2 with
          | .error e =>
            (s, if errorsIs e ErrNoSnippetError then .err 404 "Snippet not found"
                else if errorsIs e ErrDatabaseError then .err 500 "Unable to process request at this time"
                else .err 500 "An unexpected error occurred")
          | .ok (s', sn) => (s', .ok 200 sn)

/-- `SnippetHandler.DeleteSnippet`: id check, existence + ownership check
(mismatch masked as 404), database delete, error mapping. -/
def hDeleteSnippet (s : Store) (authId sid : Int) : Store × HResp Unit :=
  if sid ≤ 0 then (s, .err 400 "Invalid snippet ID")
  else
    match GetSnippetDb s sid with
    | .error e =>
      (s, if errorsIs e ErrNoSnippetError then .err 404 "Snippet not found"
          else if errorsIs e ErrDatabaseError then .err 500 "Unable to process request at this time"
          else .err 500 "An unexpected error occurred")
    | .ok existing =>
      if existing.userId != authId then (s, .err 404 "Snippet not found")
      else
        match DeleteSnippet s sid with
        | .error e =>
          (s, if errorsIs e ErrNoSnippetError then .err 404 "Snippet not found"
              else if errorsIs e ErrDatabaseError then .err 500 "Unable to process request at this time"
              else .err 500 "An unexpected error occurred")
        | .ok s' => (s', .ok 204 ())

/-- A row of the `users` table as used by login. -/
structure UserRec where
  id : Int
  username : String
  passwordHash : String
deriving DecidableEq, Repr

/-- Outcome of `AuthHandler.Login`: a 400 validation error, a delayed
generic 401 failure, or a token response. -/
inductive LoginResult where
  | invalid (status : Nat) (message : String)
  | failure (delayMs status : Nat) (message : String)
  | success (token : String) (user : UserRec)
deriving DecidableEq, Repr

/-- `AuthHandler.validateLogin`. -/
def validateLoginReq (username password : String) : Except String Unit :=
  if goTrim username == "" then .error "username is required"
  else if goTrim password == "" then .error "password is required"
  else .ok ()

/-- `AuthHandler.Login`: validate, look the user up by username, compare the
password against the stored hash (`bcryptCheck` stands for
`bcrypt.CompareHashAndPassword`), and on either failure sleep 100ms and send
the same generic 401. -/
def Login (users : List UserRec) (username password : String)
    (bcryptCheck : String → String → Bool) (genToken : UserRec → String) :
    LoginResult :=
  match validateLoginReq username password with
  | .error m => .invalid 400 m
  | .ok _ =>
    match users.find? (fun u => u.username == username) with
    | none => .failure 100 401 "Invalid username or password"
    | some user =>
      if bcryptCheck user.passwordHash password then
        .success (genToken user) user
      else .failure 100 401 "Invalid username or password"

/-- Whether an `Except` result is a success. -/
def exceptIsOk {ε α : Type _} : Except ε α → Bool
  | .ok _ => true
  | .error _ => false

/-- The spec's walk notion for the depth invariant: starting from a parent
pointer, following parent pointers reaches a null parent within `n` hops. -/
def terminatesAtNullWithin : Nat → Store → Option Int → Bool
  | _, _, none => true
  | 0, _, some _ => false
  | n + 1, s, some pid =>
    match findFolderById s pid with
    | none => false
    | some f => terminatesAtNullWithin n s f.parentId

/-- The stopping predicate matching the code's user-filtered walk: iterating
`SELECT parent_id FROM folders WHERE id = ? AND user_id = ?` from `id`
reaches a missing row or a null parent within `n` lookups. -/
def chainStopsWithin : Nat → Store → Int → Int → Bool
  | 0, _, _, _ => false
  | n + 1, s, uid, id =>
    match findFolderByIdUser s id uid with
    | none => true
    | some f =>
      match f.parentId with
      | none => true
      | some p => chainStopsWithin n s uid p

/-- Id discipline actually maintained by the store: row ids and parent
pointers stay below the id sequence. -/
def FreshFolderIds (s : Store) : Prop :=
  ∀ f ∈ s.folders, f.id < s.nextFolderId ∧
    f.parentId.all (fun pp => decide (pp < s.nextFolderId)) = true

/-- The request body used to build a linear chain of folders: folder number
`n + 1` is created under folder `n` (folder ids are assigned 1, 2, …). -/
def chainBody (n : Nat) : Folder :=
  { id := 0, userId := 0, name := "f", description := none,
    parentId := if n == 0 then none else some (Int.ofNat n),
    createdAt := 0, updatedAt := 0 }

/-- The store after `n` chain-building create requests by user 1. -/
def mkChain : Nat → Store
  | 0 => emptyStore
  | n + 1 => (hCreateFolder 0 (mkChain n) 1 (chainBody n)).1

/-- The uniqueness key of the folder-name constraint. -/
def folderKey (f : Folder) : Int × String × Option Int := (f.userId, f.name, f.parentId)

/-- Invariants of the tag tables needed to reason about tag linking: tag ids
are below the id sequence, pairwise distinct, and links only reference
already-allocated tag ids. -/
def TagsInvariant (s : Store) : Prop :=
  (∀ t ∈ s.tags, t.id < s.nextTagId) ∧
  s.tags.Pairwise (fun a b => a.id ≠ b.id) ∧
  (∀ l ∈ s.snippetTags, l.tagId < s.nextTagId)

/-- Links only reference already-allocated snippet ids. -/
def SnippetIdsBound (s : Store) : Prop :=
  ∀ l ∈ s.snippetTags, l.snippetId < s.nextSnippetId

/-- Request body for scenario folder A (root). -/
def bodyA : Folder :=
  { id := 0, userId := 1, name := "A", description := none, parentId := none,
    createdAt := 0, updatedAt := 0 }

/-- Request body for scenario folder B (child of A). -/
def bodyB : Folder :=
  { id := 0, userId := 1, name := "B", description := none, parentId := some 1,
    createdAt := 0, updatedAt := 0 }

/-- Stored row of scenario folder A. -/
def folderARow : Folder :=
  { id := 1, userId := 1, name := "A", description := none, parentId := none,
    createdAt := 0, updatedAt := 0 }

/-- Stored row of scenario folder B. -/
def folderBRow : Folder :=
  { id := 2, userId := 1, name := "B", description := none, parentId := some 1,
    createdAt := 0, updatedAt := 0 }

/-- Store holding only scenario folder A. -/
def storeA : Store :=
  { folders := [folderARow], snippets := [], tags := [], snippetTags := [],
    nextFolderId := 2, nextSnippetId := 1, nextTagId := 1 }

/-- Store holding scenario folders A and B. -/
def storeAB : Store :=
  { folders := [folderARow, folderBRow], snippets := [], tags := [], snippetTags := [],
    nextFolderId := 3, nextSnippetId := 1, nextTagId := 1 }

/-- The scenario update request: set A's parent to B. -/
def updAtoB : Folder :=
  { id := 0, userId := 1, name := "A", description := none, parentId := some 2,
    createdAt := 0, updatedAt := 0 }

/-- A store whose raw data already contains a 1 ↔ 2 parent cycle (arbitrary
data, used to observe that the unchanged-parent path skips the walk). -/
def cyclicStore : Store :=
  { folders := [
      { id := 1, userId := 1, name := "a", description := none, parentId := some 2,
        createdAt := 0, updatedAt := 0 },
      { id := 2, userId := 1, name := "b", description := none, parentId := some 1,
        createdAt := 0, updatedAt := 0 }],
    snippets := [], tags := [], snippetTags := [],
    nextFolderId := 3, nextSnippetId := 1, nextTagId := 1 }

/-- Update request keeping folder 1's parent unchanged (still folder 2). -/
def updSameParent : Folder :=
  { id := 0, userId := 1, name := "a", description := none, parentId := some 2,
    createdAt := 0, updatedAt := 0 }

/-- The PostgreSQL driver's message for a unique-constraint violation on the
folders table. -/
def pgDupKeyMsg : String :=
  "ERROR: duplicate key value violates unique constraint \"folders_user_id_name_parent_id_key\" (SQLSTATE 23505)"

/-- The SQLite driver's message for the same violation. -/
def sqliteDupKeyMsg : String :=
  "UNIQUE constraint failed: folders.user_id, folders.name, folders.parent_id"

/-- Scenario snippet-create request with tags Go / go / GO-space. -/
def goTagsBody : Snippet :=
  { id := 0, userId := 0, folderId := none, title := "hello", description := none,
    content := "x", language := "go", isFavorite := false,
    tags := some ["Go", "go", "GO "], createdAt := 0, updatedAt := 0 }

/-- The row `CreateFolder` inserts for a request. -/
def newFolderRow (now : Nat) (s : Store) (folder : Folder) : Folder :=
  { id := s.nextFolderId, userId := folder.userId, name := folder.name,
    description := folder.description, parentId := folder.parentId,
    createdAt := now, updatedAt := now }

/-- A one-snippet, one-tag, one-link store used as a concrete witness. -/
def linkedStore : Store :=
  { folders := []
    snippets := [{ id := 1, userId := 1, folderId := none, title := "t",
                   description := none, content := "c", language := "go",
                   isFavorite := false, createdAt := 0, updatedAt := 0 }]
    tags := [{ id := 1, userId := 1, name := "Go", createdAt := 0 }]
    snippetTags := [{ snippetId := 1, tagId := 1 }]
    nextFolderId := 1
    nextSnippetId := 2
    nextTagId := 2 }

/-- Update request with a nil tag list. -/
def updNilTags : Snippet :=
  { id := 0, userId := 9, folderId := none, title := "t2", description := none,
    content := "c2", language := "go", isFavorite := true, tags := none,
    createdAt := 0, updatedAt := 0 }

/-- Update request with an empty tag list. -/
def updEmptyTags : Snippet :=
  { id := 0, userId := 9, folderId := none, title := "t2", description := none,
    content := "c2", language := "go", isFavorite := true, tags := some [],
    createdAt := 0, updatedAt := 0 }

/-- `linkedStore` after the nil-tags update (scalar columns rewritten). -/
def nilUpdatedStore : Store :=
  { linkedStore with
      snippets := [{ id := 1, userId := 1, folderId := none, title := "t2",
                     description := none, content := "c2", language := "go",
                     isFavorite := true, createdAt := 0, updatedAt := 3 }] }

/-- `linkedStore` after the empty-list update (links cleared too). -/
def emptyUpdatedStore : Store :=
  { nilUpdatedStore with snippetTags := [] }

/-- The Go/go/GO-space scenario body after the handler's user-id overwrite
and validation (tags de-duplicated to the first occurrence). -/
def c5Body : Snippet := { goTagsBody with userId := 1, tags := some ["Go"] }

/-- The store produced by creating `c5Body` in an empty database: one
snippet, one tag "Go", one link. -/
def c5Store : Store :=
  { folders := []
    snippets := [{ id := 1, userId := 1, folderId := none, title := "hello",
                   description := none, content := "x", language := "go",
                   isFavorite := false, createdAt := 0, updatedAt := 0 }]
    tags := [{ id := 1, userId := 1, name := "Go", createdAt := 0 }]
    snippetTags := [{ snippetId := 1, tagId := 1 }]
    nextFolderId := 1
    nextSnippetId := 2
    nextTagId := 2 }

/-- The snippet record returned for that create. -/
def c5Res : Snippet := { c5Body with id := 1 }

/-- The folder-table discipline maintained by the handlers: row ids are
pairwise distinct and below the id sequence, and the (owner, name, parent)
keys are pairwise distinct. -/
def StoreFoldersInv (s : Store) : Prop :=
  s.folders.Pairwise (fun a b => a.id ≠ b.id) ∧
  s.folders.Pairwise (fun a b => folderKey a ≠ folderKey b) ∧
  (∀ f ∈ s.folders, f.id < s.nextFolderId)

/-- The store states reachable from a fresh database through the HTTP
handlers (each handler leaves the store unchanged on its error paths). -/
inductive Reachable : Store → Prop where
  | empty : Reachable emptyStore
  | createFolder (s : Store) (now : Nat) (auth : Int) (body : Folder) : Reachable s →
      Reachable (hCreateFolder now s auth body).1
  | updateFolder (s : Store) (now : Nat) (auth fid : Int) (body : Folder) : Reachable s →
      Reachable (hUpdateFolder now s auth fid body).1
  | deleteFolder (s : Store) (now : Nat) (auth fid : Int) : Reachable s →
      Reachable (hDeleteFolder now s auth fid).1
  | createSnippet (s : Store) (now : Nat) (auth : Int) (body : Snippet) : Reachable s →
      Reachable (hCreateSnippet now s auth body).1
  | updateSnippet (s : Store) (now : Nat) (auth sid : Int) (body : Snippet) : Reachable s →
      Reachable (hUpdateSnippet now s auth sid body).1
  | deleteSnippet (s : Store) (auth sid : Int) : Reachable s →
      Reachable (hDeleteSnippet s auth sid).1

set_option maxRecDepth 1000000

/-- C6 — counterexample.  When the folder INSERT itself fails on the
uniqueness constraint (concurrent create committed first), the error
CreateFolder returns is the generic insert wrap of the driver's
duplicate-key message; the handler's error mapping sends it to the generic
500 response, not to the 409 "already exists" conflict the claim asserts. -/
theorem C6_insert_unique_violation_not_conflict :
    mapCreateFolderDbError (createFolderInsertFailureErr (errF pgDupKeyMsg)) =
      .err 500 "An unexpected error occurred" ∧
    mapCreateFolderDbError (createFolderInsertFailureErr (errF pgDupKeyMsg)) ≠
      .err 409 "Folder name already exists in this location" := by
  exact ⟨by decide, by decide⟩

/-- C6 — amended.  Only the pre-insert duplicate check produces the
"already exists" error mapped to the 409 conflict; an insert-time
unique-constraint failure is wrapped as "failed to insert folder: …" and
the handler maps it to the generic 500 "An unexpected error occurred"
(shown for both database drivers' duplicate messages). -/
theorem C6_amended_insert_failure_is_generic :
    mapCreateFolderDbError (errF "folder name already exists in this location") =
      .err 409 "Folder name already exists in this location" ∧
    (createFolderInsertFailureErr (errF sqliteDupKeyMsg)).text =
      "failed to insert folder: " ++ sqliteDupKeyMsg ∧
    mapCreateFolderDbError (createFolderInsertFailureErr (errF sqliteDupKeyMsg)) =
      .err 500 "An unexpected error occurred" := by
  refine ⟨by decide, rfl, by decide⟩

/-- C7 — confirmed.  A login whose username does not exist and a login whose
password is wrong for an existing user produce the same delayed generic
401 "Invalid username or password" result. -/
theorem C7_login_failures_indistinguishable :
    ∀ (users : List UserRec) (u1 p1 u2 p2 : String)
      (check : String → String → Bool) (tok : UserRec → String) (target : UserRec),
      validateLoginReq u1 p1 = .ok () →
      validateLoginReq u2 p2 = .ok () →
      users.find? (fun u => u.username == u1) = none →
      users.find? (fun u => u.username == u2) = some target →
      check target.passwordHash p2 = false →
      Login users u1 p1 check tok = .failure 100 401 "Invalid username or password" ∧
      Login users u2 p2 check tok = Login users u1 p1 check tok := by
  intro users u1 p1 u2 p2 check tok target h1 h2 h3 h4 h5
  unfold Login
  rw [h1, h2, h3, h4]
  simp [h5]

/-- Witness for C7 at a concrete user table: unknown user "bob" and known
user "alice" with a failing password check get identical responses. -/
theorem C7_witness :
    Login [⟨1, "alice", "h"⟩] "bob" "pw" (fun _ _ => false) (fun _ => "t") =
      .failure 100 401 "Invalid username or password" ∧
    Login [⟨1, "alice", "h"⟩] "alice" "pw" (fun _ _ => false) (fun _ => "t") =
      .failure 100 401 "Invalid username or password" := by
  have h := C7_login_failures_indistinguishable [⟨1, "alice", "h"⟩] "bob" "pw" "alice" "pw"
    (fun _ _ => false) (fun _ => "t") ⟨1, "alice", "h"⟩
    (by decide) (by decide) (by decide) (by decide) rfl
  exact ⟨h.1, h.2.trans h.1⟩

/-- C2 — confirmed.  UpdateFolder rejects a folder as its own parent (the
operation fails for every store and request whose new parent equals the
updated folder); when the new parent differs from the current one and the
walk from the new parent reaches the folder being updated, the update
fails with the circular-reference error (the store, only replaced on
success, is left unchanged); the A/B scenario fails exactly so; and when
the parent is unchanged the cycle walk is skipped (observed on a store
whose raw data contains a cycle: the walk itself would reject, yet the
same-parent update succeeds). -/
theorem C2_update_folder_cycle_rejection :
    (∀ now s fid inp, inp.parentId = some fid →
      exceptIsOk (UpdateFolder now s fid inp) = false) ∧
    (∀ now s fid inp pid current parentRow e,
      inp.parentId = some pid →
      findFolderById s fid = some current →
      findFolderById s pid = some parentRow →
      parentRow.userId = inp.userId →
      (pid == fid) = false →
      (current.parentId == some pid) = false →
      checkCircularReferenceForUpdate s inp.userId fid pid 0 = .error e →
      UpdateFolder now s fid inp = .error (errWrapEnd "circular reference detected: " e)) ∧
    (CreateFolder 0 emptyStore bodyA = .ok (storeA, folderARow) ∧
     CreateFolder 0 storeA bodyB = .ok (storeAB, folderBRow) ∧
     UpdateFolder 0 storeAB 1 updAtoB =
       .error (errWrapEnd "circular reference detected: " (errF "circular reference detected"))) ∧
    (exceptIsOk (UpdateFolder 0 cyclicStore 1 updSameParent) = true ∧
     exceptIsOk (checkCircularReferenceForUpdate cyclicStore 1 1 2 0) = false) := by
  refine ⟨?_, ?_, ⟨by decide, by decide, by decide⟩, ⟨by decide, by decide⟩⟩
  · intro now s fid inp hinp
    unfold UpdateFolder updateFolderParentCheck
    cases hfind : findFolderById s fid with
    | none => simp [hfind, exceptIsOk]
    | some current =>
      simp only [hinp, hfind]
      cases hu : current.userId != inp.userId <;>
        simp [hfind, hu, exceptIsOk]
  · intro now s fid inp pid current parentRow e hinp hfind hfindp hu hpf hcp hwalk
    unfold UpdateFolder updateFolderParentCheck
    simp only [hinp, hfind, hfindp, hu, bne_self_eq_false, Bool.false_eq_true,
      if_false, hpf, hcp, hwalk]

/-- Witness for C2: the general rejections applied at the concrete A/B
store. -/
theorem C2_witness :
    exceptIsOk (UpdateFolder 0 storeAB 1
      { id := 0, userId := 1, name := "A", description := none, parentId := some 1,
        createdAt := 0, updatedAt := 0 }) = false ∧
    UpdateFolder 0 storeAB 1 updAtoB =
      .error (errWrapEnd "circular reference detected: " (errF "circular reference detected")) := by
  constructor
  · exact C2_update_folder_cycle_rejection.1 0 storeAB 1 _ rfl
  · exact C2_update_folder_cycle_rejection.2.1 0 storeAB 1 updAtoB 2 folderARow folderBRow
      (errF "circular reference detected") rfl (by decide) (by decide) (by decide)
      (by decide) (by decide) (by decide)

/-- C3 — confirmed.  Deleting a folder that has child folders fails with the
has-children error (the store, only replaced on success, is unchanged);
deleting a folder with no child folders removes the folder row and nulls
`folder_id` on exactly the snippets that pointed at it, both effects in the
single returned store (the model of the single transaction). -/
theorem C3_delete_folder :
    (∀ now s fid, s.folders.any (fun f => f.id == fid) = true →
      0 < (s.folders.filter (fun f => f.parentId == some fid)).length →
      DeleteFolder now s fid =
        .error (errWrapEnd
          ("folder has " ++ toString (s.folders.filter (fun f => f.parentId == some fid)).length
            ++ " child folders: ") ErrFolderHasChildren)) ∧
    (∀ now s fid, s.folders.any (fun f => f.id == fid) = true →
      (s.folders.filter (fun f => f.parentId == some fid)).length = 0 →
      DeleteFolder now s fid = .ok
        { s with
            snippets := s.snippets.map (fun sn =>
              if sn.folderId == some fid then { sn with folderId := none, updatedAt := now }
              else sn),
            folders := s.folders.filter (fun f => !(f.id == fid)) }) := by
  constructor
  · intro now s fid hany hch
    unfold DeleteFolder
    rw [hany]
    simp only [Bool.not_true, Bool.false_eq_true, if_false]
    rw [if_pos hch]
  · intro now s fid hany hch
    unfold DeleteFolder
    rw [hany]
    simp only [Bool.not_true, Bool.false_eq_true, if_false]
    rw [if_neg (by omega)]
    by_cases hsc : 0 < (s.snippets.filter (fun sn => sn.folderId == some fid)).length
    · rw [if_pos hsc]
    · rw [if_neg hsc]
      have hnil : ∀ sn ∈ s.snippets, (sn.folderId == some fid) = false := by
        intro sn hsn
        have : (s.snippets.filter (fun sn => sn.folderId == some fid)) = [] :=
          List.length_eq_zero.mp (by omega)
        have := List.filter_eq_nil_iff.mp this sn hsn
        simpa using this
      have hmap : s.snippets.map (fun sn =>
          if sn.folderId == some fid then { sn with folderId := none, updatedAt := now }
          else sn) = s.snippets := by
        have := List.map_congr_left (l := s.snippets)
          (f := fun sn => if sn.folderId == some fid then
            { sn with folderId := none, updatedAt := now } else sn)
          (g := id) (fun sn hsn => by simp [hnil sn hsn])
        simpa using this
      rw [hmap]

/-- Witness for C3: both branches at a concrete store — deleting folder 1 of
`storeAB` fails (folder 2 is its child), and deleting folder 2, which holds
one snippet, nulls that snippet's folder and removes the row. -/
theorem C3_witness :
    DeleteFolder 0 storeAB 1 =
      .error (errWrapEnd ("folder has " ++ toString
        ((storeAB.folders.filter (fun f => f.parentId == some 1)).length)
        ++ " child folders: ") ErrFolderHasChildren) ∧
    DeleteFolder 7 { storeAB with
        snippets := [{ id := 1, userId := 1, folderId := some 2, title := "t",
                       description := none, content := "c", language := "go",
                       isFavorite := false, createdAt := 0, updatedAt := 0 }],
        nextSnippetId := 2 } 2 =
      .ok { storeAB with
        snippets := [{ id := 1, userId := 1, folderId := none, title := "t",
                       description := none, content := "c", language := "go",
                       isFavorite := false, createdAt := 0, updatedAt := 7 }],
        nextSnippetId := 2,
        folders := [folderARow] } := by
  constructor
  · exact C3_delete_folder.1 0 storeAB 1 (by decide) (by decide)
  · have h := C3_delete_folder.2 7 { storeAB with
        snippets := [{ id := 1, userId := 1, folderId := some 2, title := "t",
                       description := none, content := "c", language := "go",
                       isFavorite := false, createdAt := 0, updatedAt := 0 }],
        nextSnippetId := 2 } 2 (by decide) (by decide)
    rw [h]
    decide

/-- C9 — confirmed.  When the update request's tag list is nil,
UpdateSnippet rewrites the scalar columns of the row but leaves the link
table and the tag table untouched; when a tag list is supplied the full
link set of the snippet is replaced, and an empty list leaves exactly the
links of the other snippets. -/
theorem C9_update_snippet_tags_frame :
    (∀ now s sid inp s' res, inp.tags = none →
      UpdateSnippet now s sid inp = .ok (s', res) →
      s'.snippetTags = s.snippetTags ∧ s'.tags = s.tags ∧
      s'.snippets = s.snippets.map (fun r =>
        if r.id == sid then
          { r with folderId := inp.folderId, title := inp.title,
                   description := inp.description, content := inp.content,
                   language := inp.language, isFavorite := inp.isFavorite,
                   updatedAt := now }
        else r)) ∧
    (∀ now s sid inp s' res, inp.tags = some [] →
      UpdateSnippet now s sid inp = .ok (s', res) →
      s'.snippetTags = s.snippetTags.filter (fun l => !(l.snippetId == sid))) := by
  constructor
  · intro now s sid inp s' res htags h
    unfold UpdateSnippet at h
    cases hfind : s.snippets.find? (fun r => r.id == sid) with
    | none => rw [hfind] at h; exact absurd h (by simp)
    | some current =>
      rw [hfind] at h
      simp only [htags, Except.ok.injEq, Prod.mk.injEq] at h
      obtain ⟨hs, -⟩ := h
      refine ⟨?_, ?_, ?_⟩ <;> rw [← hs]
  · intro now s sid inp s' res htags h
    unfold UpdateSnippet at h
    cases hfind : s.snippets.find? (fun r => r.id == sid) with
    | none => rw [hfind] at h; exact absurd h (by simp)
    | some current =>
      rw [hfind] at h
      simp only [htags, List.length_nil, gt_iff_lt, lt_self_iff_false, if_false,
        Except.ok.injEq, Prod.mk.injEq] at h
      obtain ⟨hs, -⟩ := h
      rw [← hs]

/-- Witness for C9: updating a one-snippet store with nil tags keeps its
existing link and tag row while rewriting the scalar columns, and updating
with an empty list leaves no links. -/
theorem C9_witness :
    (nilUpdatedStore.snippetTags = linkedStore.snippetTags ∧
     nilUpdatedStore.tags = linkedStore.tags ∧
     nilUpdatedStore.snippets = linkedStore.snippets.map (fun r =>
        if r.id == 1 then
          { r with folderId := updNilTags.folderId, title := updNilTags.title,
                   description := updNilTags.description, content := updNilTags.content,
                   language := updNilTags.language, isFavorite := updNilTags.isFavorite,
                   updatedAt := 3 }
        else r)) ∧
    emptyUpdatedStore.snippetTags = linkedStore.snippetTags.filter (fun l => !(l.snippetId == 1)) := by
  constructor
  · exact C9_update_snippet_tags_frame.1 3 linkedStore 1 updNilTags nilUpdatedStore
      { updNilTags with id := 1, userId := 1, updatedAt := 3 } rfl (by decide)
  · exact C9_update_snippet_tags_frame.2 3 linkedStore 1 updEmptyTags emptyUpdatedStore
      { updEmptyTags with id := 1, userId := 1, updatedAt := 3 } rfl (by decide)

/-- One tag-insertion step never touches the folder or snippet tables nor
their id sequences. -/
theorem insertOneTag_frame (now : Nat) (sid uid : Int) (s₀ : Store) (t : String) :
    (insertOneTag now sid uid s₀ t).folders = s₀.folders ∧
    (insertOneTag now sid uid s₀ t).snippets = s₀.snippets ∧
    (insertOneTag now sid uid s₀ t).nextFolderId = s₀.nextFolderId ∧
    (insertOneTag now sid uid s₀ t).nextSnippetId = s₀.nextSnippetId := by
  unfold insertOneTag
  cases hgt : goTrim t == "" with
  | true => simp [hgt]
  | false =>
    simp only [hgt, Bool.false_eq_true, if_false]
    cases hf : findTag s₀ uid (goTrim t) <;> simp only [hf] <;> split <;>
      exact ⟨rfl, rfl, rfl, rfl⟩

/-- Tag linking never touches the folder or snippet tables nor their id
sequences. -/
theorem insertSnippetTags_frame (now : Nat) (sid uid : Int) :
    ∀ (ts : List String) (s₀ : Store),
    (insertSnippetTags now s₀ sid uid ts).folders = s₀.folders ∧
    (insertSnippetTags now s₀ sid uid ts).snippets = s₀.snippets ∧
    (insertSnippetTags now s₀ sid uid ts).nextFolderId = s₀.nextFolderId ∧
    (insertSnippetTags now s₀ sid uid ts).nextSnippetId = s₀.nextSnippetId := by
  intro ts
  induction ts with
  | nil => intro s₀; exact ⟨rfl, rfl, rfl, rfl⟩
  | cons t ts ih =>
    intro s₀
    have h1 := insertOneTag_frame now sid uid s₀ t
    have h2 := ih (insertOneTag now sid uid s₀ t)
    exact ⟨h2.1.trans h1.1, h2.2.1.trans h1.2.1, h2.2.2.1.trans h1.2.2.1,
      h2.2.2.2.trans h1.2.2.2⟩

/-- Inversion of a successful folder update: the row existed, the parent
check and the duplicate pre-check passed, the store's folder list is the
row-wise update (user id untouched), and the returned folder carries the
stored owner. -/
theorem updateFolder_ok_inv {now : Nat} {s : Store} {fid : Int} {inp : Folder}
    {s' : Store} {res : Folder} (h : UpdateFolder now s fid inp = .ok (s', res)) :
    ∃ current, findFolderById s fid = some current ∧
      updateFolderParentCheck s fid current inp = .ok () ∧
      dupNameCountExcl s inp.userId inp.name inp.parentId fid = 0 ∧
      s' = { s with folders := s.folders.map (fun f =>
              if f.id == fid then
                { f with name := inp.name, description := inp.description,
                         parentId := inp.parentId, updatedAt := now }
              else f) } ∧
      res = { inp with id := fid, userId := current.userId, updatedAt := now } := by
  unfold UpdateFolder at h
  cases hfind : findFolderById s fid with
  | none => rw [hfind] at h; exact absurd h (by simp)
  | some current =>
    simp only [hfind] at h
    cases hpc : updateFolderParentCheck s fid current inp with
    | error e => simp only [hpc] at h; exact absurd h (by simp)
    | ok u =>
      cases u
      simp only [hpc] at h
      by_cases hd : dupNameCountExcl s inp.userId inp.name inp.parentId fid > 0
      · rw [if_pos hd] at h; exact absurd h (by simp)
      · rw [if_neg hd] at h
        simp only [Except.ok.injEq, Prod.mk.injEq] at h
        exact ⟨current, rfl, hpc, by omega, h.1.symm, h.2.symm⟩

/-- Inversion of a successful snippet update: the row existed, the returned
snippet carries the stored owner, and the snippet table is the row-wise
scalar update (user id untouched) with folders unaffected. -/
theorem updateSnippet_ok_inv {now : Nat} {s : Store} {sid : Int} {inp : Snippet}
    {s' : Store} {res : Snippet} (h : UpdateSnippet now s sid inp = .ok (s', res)) :
    ∃ current, s.snippets.find? (fun r => r.id == sid) = some current ∧
      res.userId = current.userId ∧
      s'.snippets = s.snippets.map (fun r =>
        if r.id == sid then
          { r with folderId := inp.folderId, title := inp.title,
                   description := inp.description, content := inp.content,
                   language := inp.language, isFavorite := inp.isFavorite,
                   updatedAt := now }
        else r) ∧
      s'.folders = s.folders ∧ s'.nextFolderId = s.nextFolderId := by
  unfold UpdateSnippet at h
  cases hfind : s.snippets.find? (fun r => r.id == sid) with
  | none => rw [hfind] at h; exact absurd h (by simp)
  | some current =>
    rw [hfind] at h
    cases htags : inp.tags with
    | none =>
      simp only [htags, Except.ok.injEq, Prod.mk.injEq] at h
      obtain ⟨hs, hres⟩ := h
      exact ⟨current, rfl, by rw [← hres], by rw [← hs], by rw [← hs], by rw [← hs]⟩
    | some ts =>
      simp only [htags, Except.ok.injEq, Prod.mk.injEq] at h
      obtain ⟨hs, hres⟩ := h
      refine ⟨current, rfl, by rw [← hres], ?_, ?_, ?_⟩ <;> rw [← hs]
      · split
        · exact (insertSnippetTags_frame now sid current.userId ts _).2.1
        · rfl
      · split
        · exact (insertSnippetTags_frame now sid current.userId ts _).1
        · rfl
      · split
        · exact (insertSnippetTags_frame now sid current.userId ts _).2.2.1
        · rfl

/-- C10 — confirmed.  The database UPDATEs of folders and snippets never
touch `user_id` (the (id, owner) column pairs are unchanged row-for-row and
the returned record carries the stored owner), and the update handlers
overwrite any caller-supplied user id with the authenticated one before
validating or writing, so their outcome is independent of the user id in
the request body. -/
theorem C10_owner_immutable :
    (∀ now s fid inp s' res, UpdateFolder now s fid inp = .ok (s', res) →
      s'.folders.map (fun f => (f.id, f.userId)) = s.folders.map (fun f => (f.id, f.userId)) ∧
      (findFolderById s fid).map (fun f => f.userId) = some res.userId) ∧
    (∀ now s sid inp s' res, UpdateSnippet now s sid inp = .ok (s', res) →
      s'.snippets.map (fun r => (r.id, r.userId)) = s.snippets.map (fun r => (r.id, r.userId)) ∧
      (s.snippets.find? (fun r => r.id == sid)).map (fun r => r.userId) = some res.userId) ∧
    (∀ now s auth fid body x,
      hUpdateFolder now s auth fid { body with userId := x } = hUpdateFolder now s auth fid body) ∧
    (∀ now s auth sid body x,
      hUpdateSnippet now s auth sid { body with userId := x } = hUpdateSnippet now s auth sid body) := by
  refine ⟨?_, ?_, ?_, ?_⟩
  · intro now s fid inp s' res h
    obtain ⟨current, hfind, -, -, hs, hres⟩ := updateFolder_ok_inv h
    constructor
    · rw [hs]
      simp only [List.map_map]
      refine List.map_congr_left ?_
      intro f hf
      by_cases hid : f.id = fid <;> simp [hid]
    · rw [hfind, hres]
      rfl
  · intro now s sid inp s' res h
    obtain ⟨current, hfind, hres, hs, -, -⟩ := updateSnippet_ok_inv h
    constructor
    · rw [hs]
      simp only [List.map_map]
      refine List.map_congr_left ?_
      intro r hr
      by_cases hid : r.id = sid <;> simp [hid]
    · rw [hfind]
      simp [hres]
  · intro now s auth fid body x
    rfl
  · intro now s auth sid body x
    rfl

/-- Witness for C10: a folder rename by its owner keeps the (id, owner)
pairs; the one-snippet store's update result carries owner 1 although the
body claimed user 9; and the handlers ignore a spoofed body user id. -/
theorem C10_witness :
    ((nilUpdatedStore.snippets.map (fun r => (r.id, r.userId)) =
        linkedStore.snippets.map (fun r => (r.id, r.userId))) ∧
      (linkedStore.snippets.find? (fun r => r.id == 1)).map (fun r => r.userId) =
        some ({ updNilTags with id := 1, userId := 1, updatedAt := 3 } : Snippet).userId) ∧
    hUpdateFolder 5 storeAB 1 1 { bodyA with userId := 9 } = hUpdateFolder 5 storeAB 1 1 bodyA ∧
    hUpdateSnippet 3 linkedStore 1 1 { updNilTags with userId := 77 } =
      hUpdateSnippet 3 linkedStore 1 1 updNilTags := by
  refine ⟨?_, ?_, ?_⟩
  · have h := C10_owner_immutable.2.1 3 linkedStore 1 updNilTags nilUpdatedStore
      { updNilTags with id := 1, userId := 1, updatedAt := 3 } (by decide)
    exact ⟨h.1, h.2⟩
  · exact C10_owner_immutable.2.2.1 5 storeAB 1 1 bodyA 9
  · exact C10_owner_immutable.2.2.2 3 linkedStore 1 1 updNilTags 77

/-- Removing the folder row makes the id lookup fail. -/
theorem findFolderById_removed (s : Store) (fid : Int) :
    findFolderById { s with folders := s.folders.filter (fun g => !(g.id == fid)) } fid = none := by
  unfold findFolderById
  refine List.find?_eq_none.mpr ?_
  intro a ha
  have := (List.mem_filter.mp ha).2
  simpa using this

/-- Removing the snippet row makes the id lookup fail. -/
theorem findSnippet_removed (s : Store) (sid : Int) :
    ({ s with snippets := s.snippets.filter (fun q => !(q.id == sid)) } : Store).snippets.find?
      (fun q => q.id == sid) = none := by
  refine List.find?_eq_none.mpr ?_
  intro a ha
  have := (List.mem_filter.mp ha).2
  simpa using this

/-- C8 — confirmed.  For every protected single-resource folder and snippet
handler (folder get/update/delete, snippet get/update/delete), a resource
that exists but belongs to another user draws exactly the 404 "not found"
response (with the store unchanged where the handler returns one), and the
same request against a store from which the resource row was removed draws
the identical response — never a 403. -/
theorem C8_ownership_masked_as_missing :
    (∀ s auth fid f, findFolderById s fid = some f → f.userId ≠ auth →
      hGetFolder s auth fid = .err 404 "Folder not found" ∧
      hGetFolder { s with folders := s.folders.filter (fun g => !(g.id == fid)) } auth fid =
        .err 404 "Folder not found") ∧
    (∀ now s auth fid body f, 0 < fid → findFolderById s fid = some f → f.userId ≠ auth →
      hUpdateFolder now s auth fid body = (s, .err 404 "Folder not found") ∧
      hUpdateFolder now { s with folders := s.folders.filter (fun g => !(g.id == fid)) } auth fid body =
        ({ s with folders := s.folders.filter (fun g => !(g.id == fid)) },
          .err 404 "Folder not found")) ∧
    (∀ now s auth fid f, 0 < fid → findFolderById s fid = some f → f.userId ≠ auth →
      hDeleteFolder now s auth fid = (s, .err 404 "Folder not found") ∧
      hDeleteFolder now { s with folders := s.folders.filter (fun g => !(g.id == fid)) } auth fid =
        ({ s with folders := s.folders.filter (fun g => !(g.id == fid)) },
          .err 404 "Folder not found")) ∧
    (∀ s auth sid r,
      s.snippets.find? (fun q => q.id == sid) = some r → r.userId ≠ auth →
      hGetSnippet s auth sid = .err 404 "Snippet not found" ∧
      hGetSnippet { s with snippets := s.snippets.filter (fun q => !(q.id == sid)) } auth sid =
        .err 404 "Snippet not found") ∧
    (∀ now s auth sid body r, 0 < sid →
      s.snippets.find? (fun q => q.id == sid) = some r → r.userId ≠ auth →
      hUpdateSnippet now s auth sid body = (s, .err 404 "Snippet not found") ∧
      hUpdateSnippet now { s with snippets := s.snippets.filter (fun q => !(q.id == sid)) } auth sid body =
        ({ s with snippets := s.snippets.filter (fun q => !(q.id == sid)) },
          .err 404 "Snippet not found")) ∧
    (∀ s auth sid r, 0 < sid →
      s.snippets.find? (fun q => q.id == sid) = some r → r.userId ≠ auth →
      hDeleteSnippet s auth sid = (s, .err 404 "Snippet not found") ∧
      hDeleteSnippet { s with snippets := s.snippets.filter (fun q => !(q.id == sid)) } auth sid =
        ({ s with snippets := s.snippets.filter (fun q => !(q.id == sid)) },
          .err 404 "Snippet not found")) := by
  refine ⟨?_, ?_, ?_, ?_, ?_, ?_⟩
  · intro s auth fid f hfind hne
    have hb : (f.userId != auth) = true := by simpa [bne_iff_ne] using hne
    constructor
    · unfold hGetFolder GetFolderDb
      simp only [hfind]
      simp [hb]
    · unfold hGetFolder GetFolderDb
      rw [findFolderById_removed]
      rfl
  · intro now s auth fid body f hpos hfind hne
    have hb : (f.userId != auth) = true := by simpa [bne_iff_ne] using hne
    constructor
    · unfold hUpdateFolder GetFolderDb
      rw [if_neg (by omega : ¬ fid ≤ 0)]
      simp only [hfind]
      simp [hb]
    · unfold hUpdateFolder GetFolderDb
      rw [if_neg (by omega : ¬ fid ≤ 0), findFolderById_removed]
      rfl
  · intro now s auth fid f hpos hfind hne
    have hb : (f.userId != auth) = true := by simpa [bne_iff_ne] using hne
    constructor
    · unfold hDeleteFolder GetFolderDb
      rw [if_neg (by omega : ¬ fid ≤ 0)]
      simp only [hfind]
      simp [hb]
    · unfold hDeleteFolder GetFolderDb
      rw [if_neg (by omega : ¬ fid ≤ 0), findFolderById_removed]
      rfl
  · intro s auth sid r hfind hne
    have hb : (r.userId != auth) = true := by simpa [bne_iff_ne] using hne
    constructor
    · unfold hGetSnippet GetSnippetDb
      simp only [hfind]
      simp [hb]
    · unfold hGetSnippet GetSnippetDb
      rw [findSnippet_removed]
      rfl
  · intro now s auth sid body r hpos hfind hne
    have hb : (r.userId != auth) = true := by simpa [bne_iff_ne] using hne
    constructor
    · unfold hUpdateSnippet GetSnippetDb
      rw [if_neg (by omega : ¬ sid ≤ 0)]
      simp only [hfind]
      simp [hb]
    · unfold hUpdateSnippet GetSnippetDb
      rw [if_neg (by omega : ¬ sid ≤ 0), findSnippet_removed]
      rfl
  · intro s auth sid r hpos hfind hne
    have hb : (r.userId != auth) = true := by simpa [bne_iff_ne] using hne
    constructor
    · unfold hDeleteSnippet GetSnippetDb
      rw [if_neg (by omega : ¬ sid ≤ 0)]
      simp only [hfind]
      simp [hb]
    · unfold hDeleteSnippet GetSnippetDb
      rw [if_neg (by omega : ¬ sid ≤ 0), findSnippet_removed]
      rfl

/-- Witness for C8: user 2 requesting, updating or deleting user 1's folder
1 of the A/B store and snippet 1 of the linked store gets the same 404s as
for removed rows. -/
theorem C8_witness :
    (hGetFolder storeAB 2 1 = .err 404 "Folder not found" ∧
     hGetFolder { storeAB with folders := storeAB.folders.filter (fun g => !(g.id == 1)) } 2 1 =
       .err 404 "Folder not found") ∧
    (hGetSnippet linkedStore 2 1 = .err 404 "Snippet not found" ∧
     hGetSnippet { linkedStore with
         snippets := linkedStore.snippets.filter (fun q => !(q.id == 1)) } 2 1 =
       .err 404 "Snippet not found") ∧
    (hUpdateSnippet 3 linkedStore 2 1 updNilTags = (linkedStore, .err 404 "Snippet not found") ∧
     hUpdateSnippet 3 { linkedStore with
         snippets := linkedStore.snippets.filter (fun q => !(q.id == 1)) } 2 1 updNilTags =
       ({ linkedStore with snippets := linkedStore.snippets.filter (fun q => !(q.id == 1)) },
         .err 404 "Snippet not found")) ∧
    (hDeleteSnippet linkedStore 2 1 = (linkedStore, .err 404 "Snippet not found") ∧
     hDeleteSnippet { linkedStore with
         snippets := linkedStore.snippets.filter (fun q => !(q.id == 1)) } 2 1 =
       ({ linkedStore with snippets := linkedStore.snippets.filter (fun q => !(q.id == 1)) },
         .err 404 "Snippet not found")) := by
  refine ⟨?_, ?_, ?_, ?_⟩
  · exact C8_ownership_masked_as_missing.1 storeAB 2 1 folderARow (by decide) (by decide)
  · exact C8_ownership_masked_as_missing.2.2.2.1 linkedStore 2 1
      { id := 1, userId := 1, folderId := none, title := "t", description := none,
        content := "c", language := "go", isFavorite := false, createdAt := 0, updatedAt := 0 }
      (by decide) (by decide)
  · exact C8_ownership_masked_as_missing.2.2.2.2.1 3 linkedStore 2 1 updNilTags
      { id := 1, userId := 1, folderId := none, title := "t", description := none,
        content := "c", language := "go", isFavorite := false, createdAt := 0, updatedAt := 0 }
      (by decide) (by decide) (by decide)
  · exact C8_ownership_masked_as_missing.2.2.2.2.2 linkedStore 2 1
      { id := 1, userId := 1, folderId := none, title := "t", description := none,
        content := "c", language := "go", isFavorite := false, createdAt := 0, updatedAt := 0 }
      (by decide) (by decide) (by decide)

/-- The walk of `checkCircularReference` succeeds exactly when iterating the
user-filtered parent lookup stops within the remaining budget, and otherwise
reports the depth-cap error. -/
theorem checkFuel_eq_walk (s : Store) (uid : Int) :
    ∀ (fuel : Nat) (p : Int), checkCircularReferenceFuel s uid fuel p =
      (if chainStopsWithin fuel s uid p = true then .ok ()
       else .error (errF "maximum folder depth exceeded")) := by
  intro fuel
  induction fuel with
  | zero => intro p; simp [checkCircularReferenceFuel, chainStopsWithin]
  | succ n ih =>
    intro p
    cases hf : findFolderByIdUser s p uid with
    | none => simp [checkCircularReferenceFuel, chainStopsWithin, hf]
    | some row =>
      cases hp : row.parentId with
      | none => simp [checkCircularReferenceFuel, chainStopsWithin, hf, hp]
      | some gp => simp [checkCircularReferenceFuel, chainStopsWithin, hf, hp, ih gp]

/-- One unfolding step of the walk-stopping predicate. -/
theorem chainStops_succ (n : Nat) (s : Store) (uid id : Int) :
    chainStopsWithin (n + 1) s uid id =
      (match findFolderByIdUser s id uid with
       | none => true
       | some f =>
         match f.parentId with
         | none => true
         | some p => chainStopsWithin n s uid p) := rfl

/-- Appending a fresh-id row does not change the walk from any
already-allocated id. -/
theorem chainStops_append {s : Store} (hfresh : FreshFolderIds s) {s₂ : Store}
    (newRow : Folder) (hfolders : s₂.folders = s.folders ++ [newRow])
    (hnew : newRow.id = s.nextFolderId) :
    ∀ (fuel : Nat) (uid pid : Int), pid < s.nextFolderId →
      chainStopsWithin fuel s₂ uid pid = chainStopsWithin fuel s uid pid := by
  intro fuel
  induction fuel with
  | zero => intro uid pid hpid; rfl
  | succ n ih =>
    intro uid pid hpid
    have hfind : findFolderByIdUser s₂ pid uid = findFolderByIdUser s pid uid := by
      unfold findFolderByIdUser
      rw [hfolders, List.find?_append]
      cases hfo : s.folders.find? (fun f => f.id == pid && f.userId == uid) with
      | some f => simp
      | none =>
        have hnp : (newRow.id == pid && newRow.userId == uid) = false := by
          have : newRow.id ≠ pid := by rw [hnew]; omega
          simp [this]
        simp [List.find?, hnp]
    cases hf : findFolderByIdUser s pid uid with
    | none => simp [chainStopsWithin, hfind, hf]
    | some row =>
      cases hp : row.parentId with
      | none => simp [chainStopsWithin, hfind, hf, hp]
      | some gp =>
        have hrowmem : row ∈ s.folders := by
          unfold findFolderByIdUser at hf
          exact List.mem_of_find?_eq_some hf
        have hgp : gp < s.nextFolderId := by
          have h2 := (hfresh row hrowmem).2
          rw [hp] at h2
          simpa using h2
        simp [chainStopsWithin, hfind, hf, hp, ih uid gp hgp]

/-- Inversion of a successful folder create: the parent check and duplicate
pre-check passed and the new row was appended with the next id. -/
theorem createFolder_ok_inv {now : Nat} {s : Store} {folder : Folder}
    {s' : Store} {res : Folder} (h : CreateFolder now s folder = .ok (s', res)) :
    createFolderParentCheck s folder = .ok () ∧
    dupNameCount s folder.userId folder.name folder.parentId = 0 ∧
    s' = { s with folders := s.folders ++ [newFolderRow now s folder],
                  nextFolderId := s.nextFolderId + 1 } ∧
    res = { folder with id := s.nextFolderId, createdAt := now, updatedAt := now } := by
  unfold CreateFolder at h
  cases hpc : createFolderParentCheck s folder with
  | error e => simp only [hpc] at h; exact absurd h (by simp)
  | ok u =>
    cases u
    simp only [hpc] at h
    by_cases hd : dupNameCount s folder.userId folder.name folder.parentId > 0
    · rw [if_pos hd] at h; exact absurd h (by simp)
    · rw [if_neg hd] at h
      simp only [Except.ok.injEq, Prod.mk.injEq] at h
      exact ⟨rfl, by omega, h.1.symm, h.2.symm⟩

/-- When a parent was supplied, a passing create parent check contains a
successful lookup of the parent row and a successful cycle walk. -/
theorem createFolderParentCheck_some_inv {s : Store} {folder : Folder} {p : Int}
    (hp : folder.parentId = some p)
    (h : createFolderParentCheck s folder = .ok ()) :
    ∃ parentRow, findFolderById s p = some parentRow ∧
      checkCircularReference s folder.userId p 0 = .ok () := by
  unfold createFolderParentCheck at h
  simp only [hp] at h
  cases hf : findFolderById s p with
  | none => simp only [hf] at h; exact absurd h (by simp)
  | some parentRow =>
    simp only [hf] at h
    by_cases hu : (parentRow.userId != folder.userId) = true
    · rw [if_pos hu] at h; exact absurd h (by simp)
    · rw [if_neg hu] at h
      cases hw : checkCircularReference s folder.userId p 0 with
      | error e => rw [hw] at h; exact absurd h (by simp)
      | ok u => exact ⟨parentRow, rfl, by cases u; rfl⟩

/-- C1 — counterexample.  A linear chain of 52 folders is reachable through
52 create requests (each walk stays within the cap of 50), and the deepest
folder's upward walk does not reach a null parent within 50 hops, so the
claimed 50-hop bound on all reachable stores is false. -/
theorem C1_counterexample :
    ¬ (∀ s, Reachable s → ∀ f ∈ s.folders,
        terminatesAtNullWithin 50 s f.parentId = true) := by
  intro h
  have hreach : ∀ n, Reachable (mkChain n) := by
    intro n
    induction n with
    | zero => exact Reachable.empty
    | succ n ih =>
      show Reachable (hCreateFolder 0 (mkChain n) 1 (chainBody n)).1
      exact Reachable.createFolder (mkChain n) 0 1 (chainBody n) ih
  have hmem : ({ id := 52, userId := 1, name := "f", description := none,
                 parentId := some 51, createdAt := 0, updatedAt := 0 } : Folder) ∈
      (mkChain 52).folders := by decide
  have hterm := h (mkChain 52) (hreach 52) _ hmem
  have hfalse : terminatesAtNullWithin 50 (mkChain 52) (some 51) = false := by decide
  exact Bool.false_ne_true (hfalse.symm.trans hterm)

/-- C1 — amended.  Both walks reject with the "maximum folder depth
exceeded" error whenever their hop counter exceeds the cap of 50; the
create-side walk, started at depth 0, succeeds exactly when the proposed
parent's user-filtered chain stops within 51 lookups (the update-side walk
can in addition reject earlier, as a circular reference, a chain that
reaches the folder being updated); hence a successfully created folder's
own upward walk stops within 52 lookups (under the store's id-freshness
discipline).  The claimed 50-hop bound on all reachable states is false:
the counterexample reaches a store whose deepest folder terminates only
after 51 hops. -/
theorem C1_amended_depth_cap :
    (∀ s uid p, checkCircularReference s uid p 0 =
      (if chainStopsWithin 51 s uid p = true then .ok ()
       else .error (errF "maximum folder depth exceeded"))) ∧
    (∀ (s : Store) (uid p fid : Int) (depth : Nat), depth > 50 →
      checkCircularReference s uid p depth =
        .error (errF "maximum folder depth exceeded") ∧
      checkCircularReferenceForUpdate s uid fid p depth =
        .error (errF "maximum folder depth exceeded")) ∧
    (∀ now s inp s' res p, FreshFolderIds s →
      CreateFolder now s inp = .ok (s', res) → inp.parentId = some p →
      chainStopsWithin 52 s' res.userId res.id = true) := by
  refine ⟨?_, ?_, ?_⟩
  · intro s uid p
    exact checkFuel_eq_walk s uid 51 p
  · intro s uid p fid depth hd
    have hz : 51 - depth = 0 := by omega
    constructor
    · unfold checkCircularReference
      rw [hz]
      rfl
    · unfold checkCircularReferenceForUpdate
      rw [hz]
      rfl
  · intro now s inp s' res p hfresh h hp
    obtain ⟨hpc, -, hs, hres⟩ := createFolder_ok_inv h
    obtain ⟨parentRow, hfindp, hwalk⟩ := createFolderParentCheck_some_inv hp hpc
    have hppos : p < s.nextFolderId := by
      unfold findFolderById at hfindp
      have hmem := List.mem_of_find?_eq_some hfindp
      have hpp := List.find?_some hfindp
      have hpe : parentRow.id = p := by simpa using hpp
      have := (hfresh parentRow hmem).1
      omega
    have hstops : chainStopsWithin 51 s inp.userId p = true := by
      by_contra hc
      have hc' : chainStopsWithin 51 s inp.userId p = false := by
        cases hval : chainStopsWithin 51 s inp.userId p
        · rfl
        · exact absurd hval hc
      have heq := checkFuel_eq_walk s inp.userId 51 p
      rw [hc'] at heq
      simp only [Bool.false_eq_true, if_false] at heq
      rw [checkCircularReference] at hwalk
      rw [heq] at hwalk
      exact absurd hwalk (by simp)
    subst hs hres
    show chainStopsWithin (51 + 1)
      { s with folders := s.folders ++ [newFolderRow now s inp],
               nextFolderId := s.nextFolderId + 1 } inp.userId s.nextFolderId = true
    rw [chainStops_succ]
    have hfind : findFolderByIdUser
        { s with folders := s.folders ++ [newFolderRow now s inp],
                 nextFolderId := s.nextFolderId + 1 }
        s.nextFolderId inp.userId = some (newFolderRow now s inp) := by
      unfold findFolderByIdUser
      rw [List.find?_append]
      have hold : s.folders.find?
          (fun f => f.id == s.nextFolderId && f.userId == inp.userId) = none := by
        refine List.find?_eq_none.mpr ?_
        intro f hf
        have := (hfresh f hf).1
        have hne : f.id ≠ s.nextFolderId := by omega
        simp [hne]
      rw [hold]
      simp [List.find?, newFolderRow]
    simp only [hfind]
    have hproj : (newFolderRow now s inp).parentId = some p := by
      simp [newFolderRow, hp]
    simp only [hproj]
    rw [chainStops_append hfresh (newFolderRow now s inp) rfl rfl 51 inp.userId p hppos]
    exact hstops

/-- Witness for C1: the amended cap facts applied at the concrete two-folder
store (folder B created under A stops within 52 lookups), at the empty
store, and at depth 51 where both walks reject. -/
theorem C1_witness :
    chainStopsWithin 52 storeAB 1 2 = true ∧
    checkCircularReference emptyStore 1 5 0 =
      (if chainStopsWithin 51 emptyStore 1 5 = true then .ok ()
       else .error (errF "maximum folder depth exceeded")) ∧
    checkCircularReference emptyStore 1 5 51 =
      .error (errF "maximum folder depth exceeded") ∧
    checkCircularReferenceForUpdate emptyStore 1 7 5 51 =
      .error (errF "maximum folder depth exceeded") := by
  refine ⟨C1_amended_depth_cap.2.2 0 storeA bodyB storeAB folderBRow 1 ?_ (by decide) rfl,
          C1_amended_depth_cap.1 emptyStore 1 5,
          C1_amended_depth_cap.2.1 emptyStore 1 5 7 51 (by decide)⟩
  unfold FreshFolderIds
  decide

/-- The two-branch duplicate pre-check of `CreateFolder` counts exactly the
rows with the same (owner, name, parent) key. -/
theorem dupNameCount_eq (s : Store) (uid : Int) (name : String) (par : Option Int) :
    dupNameCount s uid name par =
      (s.folders.filter (fun f => f.userId == uid && f.name == name && f.parentId == par)).length := by
  cases par <;> rfl

/-- The two-branch duplicate pre-check of `UpdateFolder` counts exactly the
other rows with the same (owner, name, parent) key. -/
theorem dupNameCountExcl_eq (s : Store) (uid : Int) (name : String) (par : Option Int)
    (fid : Int) :
    dupNameCountExcl s uid name par fid =
      (s.folders.filter (fun f =>
        f.userId == uid && f.name == name && f.parentId == par && !(f.id == fid))).length := by
  cases par <;> rfl

/-- In a list whose key projections are pairwise distinct, two members with
the same key are the same element. -/
theorem mem_key_eq {α κ : Type _} (key : α → κ) :
    ∀ {l : List α}, l.Pairwise (fun a b => key a ≠ key b) →
      ∀ {a b}, a ∈ l → b ∈ l → key a = key b → a = b := by
  intro l hp
  induction l with
  | nil => intro a b ha; cases ha
  | cons x xs ih =>
    intro a b ha hb hk
    rw [List.pairwise_cons] at hp
    rcases List.mem_cons.mp ha with ha1 | ha2 <;> rcases List.mem_cons.mp hb with hb1 | hb2
    · rw [ha1, hb1]
    · subst ha1; exact absurd hk (hp.1 b hb2)
    · subst hb1; exact absurd hk.symm (hp.1 a ha2)
    · exact ih hp.2 ha2 hb2 hk

/-- `validateFolder` only cleans name and description; the user id of its
result is the input's. -/
theorem validateFolder_userId {b b' : Folder} (h : validateFolder b = .ok b') :
    b'.userId = b.userId := by
  unfold validateFolder at h
  cases h1 : validateFolderName b with
  | error e => rw [h1] at h; cases h
  | ok f1 =>
    simp only [h1] at h
    cases h2 : validateFolderDescription f1 with
    | error e => simp only [h2] at h; cases h
    | ok f2 =>
      simp only [h2] at h
      have e1 : f1.userId = b.userId := by
        unfold validateFolderName at h1
        repeat' split at h1
        all_goals cases h1
        rfl
      have e2 : f2.userId = f1.userId := by
        unfold validateFolderDescription at h2
        split at h2
        · cases h2; rfl
        · split at h2
          · cases h2
          · cases h2; rfl
      have e3 : b'.userId = f2.userId := by
        unfold validateFolderIds at h
        repeat' split at h
        all_goals cases h
        all_goals rfl
      rw [e3, e2, e1]

/-- Creating a snippet leaves the folder table and its id sequence alone. -/
theorem createSnippet_ok_shape {now : Nat} {s : Store} {sn : Snippet} {s' : Store}
    {res : Snippet} (h : CreateSnippet now s sn = .ok (s', res)) :
    s'.folders = s.folders ∧ s'.nextFolderId = s.nextFolderId := by
  unfold CreateSnippet at h
  simp only [Except.ok.injEq, Prod.mk.injEq] at h
  obtain ⟨hs, -⟩ := h
  rw [← hs]
  cases hts : sn.tags with
  | none => simp [hts]
  | some ts =>
    simp only [hts]
    by_cases hl : ts.length > 0
    · rw [if_pos hl]
      constructor
      · exact (insertSnippetTags_frame now s.nextSnippetId sn.userId ts _).1
      · exact (insertSnippetTags_frame now s.nextSnippetId sn.userId ts _).2.2.1
    · rw [if_neg hl]
      constructor <;> rfl

/-- Deleting a snippet leaves the folder table and its id sequence alone. -/
theorem deleteSnippet_ok_shape {s : Store} {sid : Int} {s' : Store}
    (h : DeleteSnippet s sid = .ok s') :
    s'.folders = s.folders ∧ s'.nextFolderId = s.nextFolderId := by
  unfold DeleteSnippet at h
  split at h
  · exact absurd h (by simp)
  · simp only [Except.ok.injEq] at h
    rw [← h]
    exact ⟨rfl, rfl⟩

/-- A successful folder delete removes exactly the requested row and keeps
the id sequence. -/
theorem deleteFolder_ok_shape {now : Nat} {s : Store} {fid : Int} {s' : Store}
    (h : DeleteFolder now s fid = .ok s') :
    s'.folders = s.folders.filter (fun f => !(f.id == fid)) ∧
    s'.nextFolderId = s.nextFolderId := by
  unfold DeleteFolder at h
  cases hany : s.folders.any (fun f => f.id == fid) with
  | false => simp [hany] at h
  | true =>
    simp only [hany, Bool.not_true, Bool.false_eq_true, if_false] at h
    by_cases hch : (s.folders.filter (fun f => f.parentId == some fid)).length > 0
    · rw [if_pos hch] at h; cases h
    · rw [if_neg hch] at h
      by_cases hsc : (s.snippets.filter (fun sn => sn.folderId == some fid)).length > 0
      · rw [if_pos hsc] at h
        simp only [Except.ok.injEq] at h
        rw [← h]
        exact ⟨rfl, rfl⟩
      · rw [if_neg hsc] at h
        simp only [Except.ok.injEq] at h
        rw [← h]
        exact ⟨rfl, rfl⟩

/-- The folder-table invariant only depends on the folder table and its id
sequence. -/
theorem foldersInv_congr {s s' : Store} (hf : s'.folders = s.folders)
    (hn : s'.nextFolderId = s.nextFolderId) (h : StoreFoldersInv s) :
    StoreFoldersInv s' := by
  unfold StoreFoldersInv at h ⊢
  rw [hf, hn]
  exact h

/-- A successful create preserves the folder-table invariant: the new row
has a fresh id and, by the duplicate pre-check, a fresh key. -/
theorem createFolder_inv {now : Nat} {s : Store} {folder : Folder} {s' : Store}
    {res : Folder} (h : CreateFolder now s folder = .ok (s', res))
    (hinv : StoreFoldersInv s) : StoreFoldersInv s' := by
  obtain ⟨-, hdup, hs, -⟩ := createFolder_ok_inv h
  subst hs
  obtain ⟨hid, hkey, hlt⟩ := hinv
  have hdup' : ∀ f ∈ s.folders, folderKey f ≠ folderKey (newFolderRow now s folder) := by
    intro f hf hkeq
    rw [dupNameCount_eq] at hdup
    have hnil := List.filter_eq_nil_iff.mp (List.length_eq_zero.mp hdup) f hf
    apply hnil
    have hcomp : f.userId = folder.userId ∧ f.name = folder.name ∧ f.parentId = folder.parentId := by
      simpa [folderKey, newFolderRow, Prod.ext_iff] using hkeq
    simp [hcomp.1, hcomp.2.1, hcomp.2.2]
  refine ⟨?_, ?_, ?_⟩
  · rw [List.pairwise_append]
    refine ⟨hid, List.pairwise_singleton _ _, ?_⟩
    intro a ha b hb
    rw [List.mem_singleton.mp hb]
    have := hlt a ha
    show a.id ≠ (newFolderRow now s folder).id
    unfold newFolderRow
    simp only
    omega
  · rw [List.pairwise_append]
    refine ⟨hkey, List.pairwise_singleton _ _, ?_⟩
    intro a ha b hb
    rw [List.mem_singleton.mp hb]
    exact hdup' a ha
  · intro f hf
    show f.id < s.nextFolderId + 1
    rcases List.mem_append.mp hf with h1 | h2
    · have := hlt f h1; omega
    · rw [List.mem_singleton.mp h2]
      show (newFolderRow now s folder).id < s.nextFolderId + 1
      unfold newFolderRow
      simp only
      omega

/-- A successful update preserves the folder-table invariant, provided the
request's user id matches the stored row's owner (the handlers guarantee
this by overwriting the body's user id with the authenticated owner). -/
theorem updateFolder_inv {now : Nat} {s : Store} {fid : Int} {inp : Folder}
    {s' : Store} {res : Folder} (h : UpdateFolder now s fid inp = .ok (s', res))
    (hinv : StoreFoldersInv s)
    (howner : ∀ current, findFolderById s fid = some current → current.userId = inp.userId) :
    StoreFoldersInv s' := by
  obtain ⟨current, hfind, -, hdup, hs, -⟩ := updateFolder_ok_inv h
  subst hs
  obtain ⟨hid, hkey, hlt⟩ := hinv
  have hcu : current.userId = inp.userId := howner current hfind
  have hcmem : current ∈ s.folders := by
    unfold findFolderById at hfind
    exact List.mem_of_find?_eq_some hfind
  have hcid : current.id = fid := by
    unfold findFolderById at hfind
    have := List.find?_some hfind
    simpa using this
  have hdup' : ∀ f ∈ s.folders, f.id ≠ fid →
      folderKey f ≠ (inp.userId, inp.name, inp.parentId) := by
    intro f hf hne hkeq
    rw [dupNameCountExcl_eq] at hdup
    have hnil := List.filter_eq_nil_iff.mp (List.length_eq_zero.mp hdup) f hf
    apply hnil
    have hcomp : f.userId = inp.userId ∧ f.name = inp.name ∧ f.parentId = inp.parentId := by
      simpa [folderKey, Prod.ext_iff] using hkeq
    simp [hcomp.1, hcomp.2.1, hcomp.2.2, hne]
  have hgid : ∀ f : Folder, (if (f.id == fid) = true then
      { f with name := inp.name, description := inp.description,
               parentId := inp.parentId, updatedAt := now } else f).id = f.id := by
    intro f
    by_cases hfe : (f.id == fid) = true <;> simp [hfe]
  have hgkey : ∀ f ∈ s.folders, folderKey
      (if (f.id == fid) = true then
        { f with name := inp.name, description := inp.description,
                 parentId := inp.parentId, updatedAt := now }
       else f) =
      (if f.id = fid then (inp.userId, inp.name, inp.parentId) else folderKey f) := by
    intro f hf
    by_cases hfe : f.id = fid
    · have hfc : f = current := mem_key_eq (fun x : Folder => x.id) hid hf hcmem
        (by show f.id = current.id; rw [hfe, hcid])
      rw [if_pos hfe, if_pos (beq_iff_eq.mpr hfe)]
      rw [hfc]
      simp [folderKey, hcu]
    · rw [if_neg hfe, if_neg (by simpa using hfe)]
  refine ⟨?_, ?_, ?_⟩
  · rw [List.pairwise_map]
    refine hid.imp fun {a b} hab => ?_
    intro he
    rw [hgid a, hgid b] at he
    exact hab he
  · rw [List.pairwise_map]
    have hcomb := List.Pairwise.and_mem.mp (hid.and hkey)
    refine hcomb.imp fun {a b} hmem => ?_
    obtain ⟨hma, hmb, hab, hkab⟩ := hmem
    rw [hgkey a hma, hgkey b hmb]
    by_cases ha : a.id = fid <;> by_cases hb : b.id = fid
    · exact absurd (ha.trans hb.symm) hab
    · rw [if_pos ha, if_neg hb]
      intro he
      exact hdup' b hmb hb he.symm
    · rw [if_neg ha, if_pos hb]
      intro he
      exact hdup' a hma ha he
    · rw [if_neg ha, if_neg hb]
      exact hkab
  · intro f hf
    obtain ⟨f₀, hf₀, hfe⟩ := List.mem_map.mp hf
    show f.id < s.nextFolderId
    rw [← hfe, hgid f₀]
    exact hlt f₀ hf₀

/-- Every reachable store satisfies the folder-table invariant. -/
theorem reachable_foldersInv : ∀ s, Reachable s → StoreFoldersInv s := by
  intro s h
  induction h with
  | empty => exact ⟨List.Pairwise.nil, List.Pairwise.nil, by intro f hf; cases hf⟩
  | createFolder s1 now auth body hr ih =>
    unfold hCreateFolder
    cases hv : validateFolder { body with userId := auth } with
    | error m => simp only [hv]; exact ih
    | ok body2 =>
      simp only [hv]
      cases hc : CreateFolder now s1 body2 with
      | error e => simp only [hc]; exact ih
      | ok pr =>
        cases pr with
        | mk s2 f2 =>
          simp only [hc]
          exact createFolder_inv hc ih
  | updateFolder s1 now auth fid body hr ih =>
    unfold hUpdateFolder GetFolderDb
    by_cases hfid : fid ≤ 0
    · simp only [if_pos hfid]; exact ih
    · simp only [if_neg hfid]
      cases hfind : findFolderById s1 fid with
      | none => simp only [hfind]; exact ih
      | some existing =>
        simp only [hfind]
        cases hne : existing.userId != auth with
        | true => simp [hne]; exact ih
        | false =>
          simp only [hne, Bool.false_eq_true, if_false]
          cases hv : validateFolder { body with userId := auth } with
          | error m => simp only [hv]; exact ih
          | ok body2 =>
            simp only [hv]
            cases hu : UpdateFolder now s1 fid body2 with
            | error e => simp only [hu]; exact ih
            | ok pr =>
              cases pr with
              | mk s2 f2 =>
                simp only [hu]
                refine updateFolder_inv hu ih ?_
                intro current hcur
                rw [hfind] at hcur
                injection hcur with hh
                rw [← hh]
                have hea : existing.userId = auth := by simpa using hne
                rw [hea]
                exact (validateFolder_userId hv).symm
  | deleteFolder s1 now auth fid hr ih =>
    unfold hDeleteFolder GetFolderDb
    by_cases hfid : fid ≤ 0
    · simp only [if_pos hfid]; exact ih
    · simp only [if_neg hfid]
      cases hfind : findFolderById s1 fid with
      | none => simp only [hfind]; exact ih
      | some existing =>
        simp only [hfind]
        cases hne : existing.userId != auth with
        | true => simp [hne]; exact ih
        | false =>
          simp only [hne, Bool.false_eq_true, if_false]
          cases hd : DeleteFolder now s1 fid with
          | error e => simp only [hd]; exact ih
          | ok s2 =>
            simp only [hd]
            obtain ⟨hf2, hn2⟩ := deleteFolder_ok_shape hd
            obtain ⟨hid, hkey, hlt⟩ := ih
            refine ⟨?_, ?_, ?_⟩
            · rw [hf2]; exact hid.sublist (List.filter_sublist _)
            · rw [hf2]; exact hkey.sublist (List.filter_sublist _)
            · intro f hf
              rw [hf2] at hf
              have := hlt f (List.mem_filter.mp hf).1
              rw [hn2]
              exact this
  | createSnippet s1 now auth body hr ih =>
    unfold hCreateSnippet
    cases hv : validateSnippet { body with userId := auth } with
    | error m => simp only [hv]; exact ih
    | ok body2 =>
      simp only [hv]
      cases hc : CreateSnippet now s1 body2 with
      | error e => simp only [hc]; exact ih
      | ok pr =>
        cases pr with
        | mk s2 sn2 =>
          simp only [hc]
          obtain ⟨hf2, hn2⟩ := createSnippet_ok_shape hc
          exact foldersInv_congr hf2 hn2 ih
  | updateSnippet s1 now auth sid body hr ih =>
    unfold hUpdateSnippet GetSnippetDb
    by_cases hsid : sid ≤ 0
    · simp only [if_pos hsid]; exact ih
    · simp only [if_neg hsid]
      cases hfind : s1.snippets.find? (fun q => q.id == sid) with
      | none => simp only [hfind]; exact ih
      | some r =>
        simp only [hfind]
        cases hne : r.userId != auth with
        | true => simp [hne]; exact ih
        | false =>
          simp only [hne, Bool.false_eq_true, if_false]
          cases hv : validateSnippet { body with userId := auth } with
          | error m => simp only [hv]; exact ih
          | ok body2 =>
            simp only [hv]
            cases hu : UpdateSnippet now s1 sid body2 with
            | error e => simp only [hu]; exact ih
            | ok pr =>
              cases pr with
              | mk s2 sn2 =>
                simp only [hu]
                obtain ⟨-, -, -, -, hf2, hn2⟩ := updateSnippet_ok_inv hu
                exact foldersInv_congr hf2 hn2 ih
  | deleteSnippet s1 auth sid hr ih =>
    unfold hDeleteSnippet GetSnippetDb
    by_cases hsid : sid ≤ 0
    · simp only [if_pos hsid]; exact ih
    · simp only [if_neg hsid]
      cases hfind : s1.snippets.find? (fun q => q.id == sid) with
      | none => simp only [hfind]; exact ih
      | some r =>
        simp only [hfind]
        cases hne : r.userId != auth with
        | true => simp [hne]; exact ih
        | false =>
          simp only [hne, Bool.false_eq_true, if_false]
          cases hd : DeleteSnippet s1 sid with
          | error e => simp only [hd]; exact ih
          | ok s2 =>
            simp only [hd]
            obtain ⟨hf2, hn2⟩ := deleteSnippet_ok_shape hd
            exact foldersInv_congr hf2 hn2 ih

/-- C4 — confirmed.  Every store reachable through the handlers has at most
one folder per (owner, name, parent) key, root (NULL parent) counting as a
parent value; a successful create or update implies its duplicate pre-check
found no row with the same key (root compared with IS NULL), and when the
pre-check does find one, CreateFolder rejects with the "already exists"
error. -/
theorem C4_folder_triple_uniqueness :
    (∀ s, Reachable s → s.folders.Pairwise (fun a b => folderKey a ≠ folderKey b)) ∧
    (∀ now s inp out, CreateFolder now s inp = .ok out →
      dupNameCount s inp.userId inp.name inp.parentId = 0) ∧
    (∀ now s fid inp out, UpdateFolder now s fid inp = .ok out →
      dupNameCountExcl s inp.userId inp.name inp.parentId fid = 0) ∧
    (∀ now s inp, createFolderParentCheck s inp = .ok () →
      dupNameCount s inp.userId inp.name inp.parentId > 0 →
      CreateFolder now s inp = .error (errF "folder name already exists in this location")) := by
  refine ⟨?_, ?_, ?_, ?_⟩
  · intro s h
    exact (reachable_foldersInv s h).2.1
  · intro now s inp out h
    cases out with
    | mk s' res => exact (createFolder_ok_inv h).2.1
  · intro now s fid inp out h
    cases out with
    | mk s' res =>
      obtain ⟨c, -, -, hd, -, -⟩ := updateFolder_ok_inv h
      exact hd
  · intro now s inp hpc hdup
    unfold CreateFolder
    simp only [hpc]
    rw [if_pos hdup]

/-- Witness for C4: the reachable A/B store has pairwise-distinct folder
keys; creating B under A passed the duplicate pre-check; creating B again
in the same place is rejected. -/
theorem C4_witness :
    List.Pairwise (fun a b => folderKey a ≠ folderKey b) storeAB.folders ∧
    dupNameCount storeA bodyB.userId bodyB.name bodyB.parentId = 0 ∧
    CreateFolder 0 storeAB bodyB =
      .error (errF "folder name already exists in this location") := by
  refine ⟨?_, ?_, ?_⟩
  · apply C4_folder_triple_uniqueness.1
    have h1 : Reachable ((hCreateFolder 0 emptyStore 1 bodyA).1) :=
      Reachable.createFolder emptyStore 0 1 bodyA Reachable.empty
    have h2 : Reachable ((hCreateFolder 0 (hCreateFolder 0 emptyStore 1 bodyA).1 1 bodyB).1) :=
      Reachable.createFolder _ 0 1 bodyB h1
    have he : (hCreateFolder 0 (hCreateFolder 0 emptyStore 1 bodyA).1 1 bodyB).1 = storeAB := by
      decide
    rw [he] at h2
    exact h2
  · exact C4_folder_triple_uniqueness.2.1 0 storeA bodyB (storeAB, folderBRow) (by decide)
  · exact C4_folder_triple_uniqueness.2.2.2 0 storeAB bodyB (by decide) (by decide)

/-- Membership is preserved by sorted insertion. -/
theorem mem_insertSorted (x y : String) :
    ∀ l, (y ∈ insertSorted x l ↔ y = x ∨ y ∈ l) := by
  intro l
  induction l with
  | nil => simp [insertSorted]
  | cons z zs ih =>
    unfold insertSorted
    by_cases hle : x ≤ z
    · rw [if_pos hle]
      simp [List.mem_cons]
    · rw [if_neg hle]
      simp only [List.mem_cons, ih]
      constructor
      · rintro (h | h | h)
        · exact Or.inr (Or.inl h)
        · exact Or.inl h
        · exact Or.inr (Or.inr h)
      · rintro (h | h | h)
        · exact Or.inr (Or.inl h)
        · exact Or.inl h
        · exact Or.inr (Or.inr h)

/-- Membership is preserved by the name ordering. -/
theorem mem_sortNames (y : String) : ∀ l, (y ∈ sortNames l ↔ y ∈ l) := by
  intro l
  induction l with
  | nil => simp [sortNames]
  | cons z zs ih =>
    unfold sortNames at ih ⊢
    rw [List.foldr_cons, mem_insertSorted, ih]
    simp [List.mem_cons]

/-- With pairwise-distinct tag ids, looking a member tag up by its own id
finds exactly it. -/
theorem find_tag_by_id {s : Store} (hids : s.tags.Pairwise (fun a b => a.id ≠ b.id))
    {tg : Tag} (htg : tg ∈ s.tags) :
    s.tags.find? (fun t => t.id == tg.id) = some tg := by
  cases hfo : s.tags.find? (fun t => t.id == tg.id) with
  | none =>
    exfalso
    have := List.find?_eq_none.mp hfo tg htg
    simp at this
  | some tg2 =>
    have hm := List.mem_of_find?_eq_some hfo
    have hp := List.find?_some hfo
    have hpe : tg2.id = tg.id := by simpa using hp
    rw [mem_key_eq (fun x : Tag => x.id) hids hm htg hpe]

/-- After deleting a snippet's links, the join for that snippet is empty. -/
theorem joined_after_unlink (s1 : Store) (sid : Int) :
    joinedTagNames { s1 with snippetTags := s1.snippetTags.filter (fun l => !(l.snippetId == sid)) } sid = [] := by
  unfold joinedTagNames
  refine List.filterMap_eq_nil_iff.mpr ?_
  intro l hl
  have := (List.mem_filter.mp hl).2
  have hne : (l.snippetId == sid) = false := by simpa using this
  rw [if_neg (by simp [hne])]

/-- The tag-table invariant transfers along stores with the same tag table
and a link subset. -/
theorem tagsInv_sub {s s' : Store} (ht : s'.tags = s.tags) (hn : s'.nextTagId = s.nextTagId)
    (hl : ∀ l ∈ s'.snippetTags, l ∈ s.snippetTags) (h : TagsInvariant s) :
    TagsInvariant s' := by
  obtain ⟨h1, h2, h3⟩ := h
  refine ⟨?_, ?_, ?_⟩
  · intro t htm
    rw [hn]
    exact h1 t (by rw [← ht]; exact htm)
  · rw [ht]
    exact h2
  · intro l hlm
    rw [hn]
    exact h3 l (hl l hlm)

/-- One tag-insertion step preserves the tag-table invariant and adds
exactly the trimmed name (when non-empty) to the snippet's joined tag
names. -/
theorem insertOneTag_join (now : Nat) (sid uid : Int) (s : Store) (tn : String)
    (hinv : TagsInvariant s) :
    TagsInvariant (insertOneTag now sid uid s tn) ∧
    (∀ n, n ∈ joinedTagNames (insertOneTag now sid uid s tn) sid ↔
      (n ∈ joinedTagNames s sid ∨ (¬ goTrim tn = "" ∧ n = goTrim tn))) := by
  obtain ⟨hfr, hids, hlnk⟩ := hinv
  by_cases hgt : (goTrim tn == "") = true
  · have heqA : insertOneTag now sid uid s tn = s := by
      unfold insertOneTag
      rw [if_pos hgt]
    rw [heqA]
    refine ⟨⟨hfr, hids, hlnk⟩, fun n => ?_⟩
    simp [beq_iff_eq.mp hgt]
  · have htne : ¬ goTrim tn = "" := by simpa using hgt
    cases hft : findTag s uid (goTrim tn) with
    | some tg =>
      have hft' := hft
      unfold findTag at hft'
      have htgmem : tg ∈ s.tags := List.mem_of_find?_eq_some hft'
      have hpred := List.find?_some hft'
      rw [Bool.and_eq_true] at hpred
      have htgname : tg.name = goTrim tn := by simpa using hpred.2
      by_cases hany : (s.snippetTags.any (fun l => l.snippetId == sid && l.tagId == tg.id)) = true
      · have heqB : insertOneTag now sid uid s tn = s := by
          unfold insertOneTag
          rw [if_neg hgt]
          simp only [hft]
          rw [if_pos hany]
        rw [heqB]
        refine ⟨⟨hfr, hids, hlnk⟩, fun n => ?_⟩
        have hinB : tg.name ∈ joinedTagNames s sid := by
          obtain ⟨lnk, hlm, hlp⟩ := List.any_eq_true.mp hany
          rw [Bool.and_eq_true] at hlp
          unfold joinedTagNames
          rw [List.mem_filterMap]
          refine ⟨lnk, hlm, ?_⟩
          rw [if_pos hlp.1]
          have hte : lnk.tagId = tg.id := by simpa using hlp.2
          rw [hte, find_tag_by_id hids htgmem]
          rfl
        constructor
        · exact Or.inl
        · rintro (h | ⟨-, hn⟩)
          · exact h
          · rw [hn, ← htgname]
            exact hinB
      · have heqC : insertOneTag now sid uid s tn =
            { s with snippetTags := s.snippetTags ++ [{ snippetId := sid, tagId := tg.id }] } := by
          unfold insertOneTag
          rw [if_neg hgt]
          simp only [hft]
          rw [if_neg hany]
        rw [heqC]
        have hjoinC : joinedTagNames
            { s with snippetTags := s.snippetTags ++ [{ snippetId := sid, tagId := tg.id }] } sid =
            joinedTagNames s sid ++ [tg.name] := by
          unfold joinedTagNames
          rw [List.filterMap_append]
          congr 1
          simp [List.filterMap_cons, find_tag_by_id hids htgmem]
        refine ⟨⟨hfr, hids, ?_⟩, fun n => ?_⟩
        · intro l hl
          rcases List.mem_append.mp hl with h1 | h2
          · exact hlnk l h1
          · rw [List.mem_singleton.mp h2]
            exact hfr tg htgmem
        · rw [hjoinC, List.mem_append, List.mem_singleton]
          constructor
          · rintro (h | h)
            · exact Or.inl h
            · exact Or.inr ⟨htne, by rw [h, htgname]⟩
          · rintro (h | ⟨-, hn⟩)
            · exact Or.inl h
            · exact Or.inr (by rw [hn, ← htgname])
    | none =>
      have hanyD : (s.snippetTags.any (fun l => l.snippetId == sid && l.tagId == s.nextTagId)) = false := by
        rw [List.any_eq_false]
        intro l hl
        have hlv := hlnk l hl
        rw [Bool.and_eq_true, not_and]
        intro h1
        have hneq : l.tagId ≠ s.nextTagId := by omega
        simpa using hneq
      have heqD : insertOneTag now sid uid s tn =
          { s with
              tags := s.tags ++ [{ id := s.nextTagId, userId := uid,
                                   name := goTrim tn, createdAt := now }],
              snippetTags := s.snippetTags ++ [{ snippetId := sid, tagId := s.nextTagId }],
              nextTagId := s.nextTagId + 1 } := by
        unfold insertOneTag
        rw [if_neg hgt]
        simp only [hft]
        rw [if_neg (by rw [hanyD]; exact Bool.false_ne_true)]
      rw [heqD]
      have hjoinD : joinedTagNames
          { s with
              tags := s.tags ++ [{ id := s.nextTagId, userId := uid,
                                   name := goTrim tn, createdAt := now }],
              snippetTags := s.snippetTags ++ [{ snippetId := sid, tagId := s.nextTagId }],
              nextTagId := s.nextTagId + 1 } sid =
          joinedTagNames s sid ++ [goTrim tn] := by
        unfold joinedTagNames
        rw [List.filterMap_append]
        congr 1
        · apply List.filterMap_congr
          intro l hl
          by_cases hls : (l.snippetId == sid) = true
          · rw [if_pos hls, if_pos hls]
            rw [List.find?_append]
            cases hfo : s.tags.find? (fun t => t.id == l.tagId) with
            | some t0 => simp
            | none =>
              have hlt := hlnk l hl
              have hne2 : ¬ (s.nextTagId = l.tagId) := by omega
              have hb : (s.nextTagId == l.tagId) = false := by simpa using hne2
              simp [List.find?, hb]
          · rw [if_neg (by simpa using hls), if_neg (by simpa using hls)]
        · have hold : s.tags.find? (fun t => t.id == s.nextTagId) = none := by
            refine List.find?_eq_none.mpr ?_
            intro t ht
            have hv := hfr t ht
            have hvne : ¬ (t.id = s.nextTagId) := by omega
            simpa using hvne
          have hfindnew : (s.tags ++ [(⟨s.nextTagId, uid, goTrim tn, now⟩ : Tag)]).find?
              (fun t => t.id == s.nextTagId) = some (⟨s.nextTagId, uid, goTrim tn, now⟩ : Tag) := by
            rw [List.find?_append, hold]
            simp [List.find?]
          simp [List.filterMap_cons, hfindnew, hold]
      refine ⟨⟨?_, ?_, ?_⟩, fun n => ?_⟩
      · intro t ht
        rcases List.mem_append.mp ht with h1 | h2
        · have := hfr t h1
          show t.id < s.nextTagId + 1
          omega
        · rw [List.mem_singleton.mp h2]
          show s.nextTagId < s.nextTagId + 1
          omega
      · rw [List.pairwise_append]
        refine ⟨hids, List.pairwise_singleton _ _, ?_⟩
        intro a ha b hb
        rw [List.mem_singleton.mp hb]
        have := hfr a ha
        show a.id ≠ s.nextTagId
        omega
      · intro l hl
        rcases List.mem_append.mp hl with h1 | h2
        · have := hlnk l h1
          show l.tagId < s.nextTagId + 1
          omega
        · rw [List.mem_singleton.mp h2]
          show s.nextTagId < s.nextTagId + 1
          omega
      · rw [hjoinD, List.mem_append, List.mem_singleton]
        constructor
        · rintro (h | h)
          · exact Or.inl h
          · exact Or.inr ⟨htne, h⟩
        · rintro (h | ⟨-, hn⟩)
          · exact Or.inl h
          · exact Or.inr hn

/-- The whole tag-insertion loop preserves the tag-table invariant and the
joined names afterwards are exactly the old joined names plus every trimmed
non-empty supplied name. -/
theorem insertSnippetTags_join (now : Nat) (sid uid : Int) :
    ∀ (ts : List String) (s : Store), TagsInvariant s →
    TagsInvariant (insertSnippetTags now s sid uid ts) ∧
    (∀ n, n ∈ joinedTagNames (insertSnippetTags now s sid uid ts) sid ↔
      (n ∈ joinedTagNames s sid ∨ ∃ t ∈ ts, ¬ goTrim t = "" ∧ n = goTrim t)) := by
  intro ts
  induction ts with
  | nil =>
    intro s hinv
    refine ⟨hinv, fun n => ?_⟩
    simp [insertSnippetTags]
  | cons t ts ih =>
    intro s hinv
    have hstep := insertOneTag_join now sid uid s t hinv
    have hrec := ih (insertOneTag now sid uid s t) hstep.1
    have heq : insertSnippetTags now s sid uid (t :: ts)
        = insertSnippetTags now (insertOneTag now sid uid s t) sid uid ts := rfl
    rw [heq]
    refine ⟨hrec.1, fun n => ?_⟩
    rw [hrec.2 n, hstep.2 n]
    constructor
    · rintro ((h | h) | ⟨u, hu, h⟩)
      · exact Or.inl h
      · exact Or.inr ⟨t, List.mem_cons_self t ts, h⟩
      · exact Or.inr ⟨u, List.mem_cons_of_mem t hu, h⟩
    · rintro (h | ⟨u, hu, h⟩)
      · exact Or.inl (Or.inl h)
      · rcases List.mem_cons.mp hu with hut | hu2
        · exact Or.inl (Or.inr (hut ▸ h))
        · exact Or.inr ⟨u, hu2, h⟩

/-- Inserting a validated tag list into a store whose join for the snippet
is empty yields exactly that list as the snippet's tag set. -/
theorem tags_replaced (now : Nat) (sid uid : Int) (sBase : Store) (l : List String)
    (hinv : TagsInvariant sBase)
    (hnil : joinedTagNames sBase sid = [])
    (hcl : ∀ n ∈ l, goTrim n = n ∧ ¬ n = "") :
    ∀ n, (n ∈ getSnippetTags (insertSnippetTags now sBase sid uid l) sid ↔ n ∈ l) := by
  intro n
  unfold getSnippetTags
  rw [mem_sortNames]
  rw [(insertSnippetTags_join now sid uid l sBase hinv).2 n, hnil]
  simp only [List.not_mem_nil, false_or]
  constructor
  · rintro ⟨t, ht, hne, hn⟩
    rw [hn, (hcl t ht).1]
    exact ht
  · intro hn
    refine ⟨n, hn, ?_, ?_⟩
    · rw [(hcl n hn).1]
      exact (hcl n hn).2
    · exact ((hcl n hn).1).symm

/-- C5 — confirmed.  A snippet update whose request carries a (validated:
trimmed, non-empty) tag-name list first deletes the snippet's whole link
set and re-inserts the supplied names, so the resulting tag set is exactly
the supplied list with no leftover links; a snippet create likewise stores
exactly the supplied list; and `validateSnippet` turns the scenario input
["Go", "go", "GO "] into the single tag "Go" (first occurrence kept,
case-insensitive duplicates dropped), which the create handler then stores
as the snippet's only tag. -/
theorem C5_tag_reconciliation :
    (∀ (now : Nat) (s : Store) (sid : Int) (sn : Snippet) (l : List String)
        (s2 : Store) (res : Snippet),
      TagsInvariant s → sn.tags = some l → l ≠ [] →
      (∀ n ∈ l, goTrim n = n ∧ ¬ n = "") →
      UpdateSnippet now s sid sn = .ok (s2, res) →
      ∀ n, (n ∈ getSnippetTags s2 sid ↔ n ∈ l)) ∧
    (∀ (now : Nat) (s : Store) (sn : Snippet) (l : List String)
        (s2 : Store) (res : Snippet),
      TagsInvariant s → SnippetIdsBound s → sn.tags = some l → l ≠ [] →
      (∀ n ∈ l, goTrim n = n ∧ ¬ n = "") →
      CreateSnippet now s sn = .ok (s2, res) →
      ∀ n, (n ∈ getSnippetTags s2 res.id ↔ n ∈ l)) ∧
    validateSnippet { goTagsBody with userId := 1 } = .ok c5Body ∧
    getSnippetTags (hCreateSnippet 0 emptyStore 1 goTagsBody).1 1 = ["Go"] := by
  refine ⟨?_, ?_, by decide, by decide⟩
  · intro now s sid sn l s2 res hinv htags hlne hcl hok
    have hlpos : l.length > 0 := List.length_pos.mpr hlne
    unfold UpdateSnippet at hok
    cases hfind : s.snippets.find? (fun r => r.id == sid) with
    | none =>
      rw [hfind] at hok
      exact absurd hok (by simp)
    | some current =>
      rw [hfind] at hok
      simp only [htags, Except.ok.injEq, Prod.mk.injEq] at hok
      obtain ⟨hs, hres⟩ := hok
      rw [if_pos hlpos] at hs
      subst hs
      refine tags_replaced now sid current.userId _ l ?_ ?_ hcl
      · refine tagsInv_sub ?_ ?_ ?_ hinv
        · rfl
        · rfl
        · exact fun lk hlk => (List.mem_filter.mp hlk).1
      · exact joined_after_unlink _ sid
  · intro now s sn l s2 res hinv hbound htags hlne hcl hok
    have hlpos : l.length > 0 := List.length_pos.mpr hlne
    unfold CreateSnippet at hok
    simp only [htags, Except.ok.injEq, Prod.mk.injEq] at hok
    obtain ⟨hs, hres⟩ := hok
    rw [if_pos hlpos] at hs
    subst hs
    have hresid : res.id = s.nextSnippetId := by rw [← hres]
    rw [hresid]
    refine tags_replaced now s.nextSnippetId sn.userId _ l ?_ ?_ hcl
    · refine tagsInv_sub ?_ ?_ ?_ hinv
      · rfl
      · rfl
      · exact fun lk hlk => hlk
    · unfold joinedTagNames
      refine List.filterMap_eq_nil_iff.mpr ?_
      intro lk hlk
      have hb := hbound lk hlk
      have hne : ¬ ((lk.snippetId == s.nextSnippetId) = true) := by
        simp only [beq_iff_eq]
        omega
      rw [if_neg hne]

/-- `C5_tag_reconciliation` instantiated at the Go-scenario create: an
empty store satisfies both invariants and the created snippet's tag set is
exactly the validated list. -/
theorem C5_witness :
    TagsInvariant emptyStore ∧ SnippetIdsBound emptyStore ∧
    ("Go" ∈ getSnippetTags c5Store c5Res.id ↔ "Go" ∈ ["Go"]) := by
  have hinv : TagsInvariant emptyStore := by
    refine ⟨?_, ?_, ?_⟩ <;> simp [emptyStore]
  have hb : SnippetIdsBound emptyStore := by
    intro lk hlk
    simp [emptyStore] at hlk
  refine ⟨hinv, hb, ?_⟩
  exact C5_tag_reconciliation.2.1 0 emptyStore c5Body ["Go"] c5Store c5Res hinv hb rfl
    (by decide) (by decide) (by decide) "Go"

end Fragments
